import Mathlib

/-! GeoIP2 extension (`extension.cpp`): shallow embedding and verified properties.

The extension is a thin bridge between a plugin host and a MaxMind database
reader.  This development embeds `StripPort`, the nine natives registered in
`geoip_natives`, and `SDK_OnLoad`.

Conventions of the embedding.

* A `char *` is the list of characters found in memory from the pointer
  onwards.  The C string it holds is the part before the first NUL (`cstr`);
  the end of the list also ends the string.
* The natives are embedded twice.  On separate buffers (`Context`), the
  strings behind `params[1]`, `params[2]` and `params[4]` are three lists: this
  is the embedding for calls whose strings do not overlap.  On the plugin
  memory (`InMemory.sm_Geoip_...`), the three addresses are offsets into one
  list, so that calls with overlapping arguments can be stated.  The theorem
  `memory_natives_agree_with_buffer_natives` shows that the two agree when the
  strings do not overlap.
* `lookupString` and the tables `GeoIPCountryCode` / `GeoIPCountryCode3` are
  declared in `geoip_util.h`, which is outside `extension.cpp`; they are
  parameters of the embedding (`Env`).
-/

namespace GeoIP2

/-! ## C strings -/

/-- The string terminator. -/
def NUL : Char := Char.ofNat 0

/-- The C string held by a buffer: its characters before the first NUL. -/
def cstr (buf : List Char) : List Char :=
  buf.takeWhile (fun c => c != NUL)

/-- C `strlen`. -/
def strlen (s : List Char) : Nat :=
  (cstr s).length

/-- C `strchr`: offset of the first occurrence of `c` in the string held by
`s`, or `none` (a null pointer) when the string ends first. -/
def strchr : List Char → Char → Option Nat
  | [], _ => none
  | b :: bs, c =>
    if b = c then some 0
    else if b = NUL then none
    else (strchr bs c).map (fun k => k + 1)

/-- C `strcpy`: the characters of the source string and a terminator are
written at the start of `dst`; the rest of `dst` is left as it was. -/
def strcpy (dst src : List Char) : List Char :=
  cstr src ++ NUL :: dst.drop ((cstr src).length + 1)

/-- C `strcat`: the characters of the source string and a terminator are
written where the string of `dst` ends; the rest of `dst` is left as it was. -/
def strcat (dst src : List Char) : List Char :=
  cstr dst ++ cstr src ++ NUL :: dst.drop ((cstr dst).length + (cstr src).length + 1)

/-- C `strcmp`, comparing characters by their code. -/
def strcmp : List Char → List Char → Int
  | [], [] => 0
  | [], b :: _ => (0 : Int) - b.toNat
  | a :: _, [] => (a.toNat : Int)
  | a :: as, b :: bs =>
    if a ≠ b then (a.toNat : Int) - b.toNat
    else if a = NUL then 0
    else strcmp as bs

/-- C `strncmp`: as `strcmp`, over at most `n` characters. -/
def strncmp : List Char → List Char → Nat → Int
  | _, _, 0 => 0
  | [], [], _ + 1 => 0
  | [], b :: _, _ + 1 => (0 : Int) - b.toNat
  | a :: _, [], _ + 1 => (a.toNat : Int)
  | a :: as, b :: bs, n + 1 =>
    if a ≠ b then (a.toNat : Int) - b.toNat
    else if a = NUL then 0
    else strncmp as bs n

/-! ## `StripPort` -/

/-- Source `StripPort` (extension.cpp:95-101): the first `':'` of the string,
if any, is overwritten with the terminator. -/
def StripPort (ip : List Char) : List Char :=
  match strchr ip ':' with
  | none => ip
  | some tmp => ip.set tmp NUL

/-! ## Host and library interface -/

/-- The plugin-side state a native can touch through `IPluginContext`, for a
call whose three strings do not overlap in the plugin memory: the memory
behind each string parameter, and the context's pending native error (set by
`ThrowNativeError` / `ReportError`, which no native of this extension calls).
Calls with overlapping strings are covered by the natives on the plugin
memory, `InMemory.sm_Geoip_...`. -/
structure Context where
  /-- Memory at `params[1]`, the IP address string. -/
  ip : List Char
  /-- Memory at `params[2]`, the caller's result buffer. -/
  name : List Char
  /-- Memory at `params[4]`, the language code string. -/
  lang : List Char
  /-- Pending native error of the context, if any. -/
  nativeError : Option (List Char)
deriving DecidableEq

/-- Host routine `IPluginContext::StringToLocal(addr, bytes, source)`: copies
at most `bytes - 1` characters of the source string into the plugin buffer and
terminates it; with `bytes = 0` the buffer is not touched. -/
def StringToLocal (dest : List Char) (bytes : Nat) (source : List Char) : List Char :=
  if bytes = 0 then dest
  else
    let len := if strlen source ≥ bytes then bytes - 1 else strlen source
    source.take len ++ NUL :: dest.drop (len + 1)

/-- Library routine `ke::SafeStrcpy(dest, maxlength, src)`: copies at most
`maxlength - 1` characters of the source string and terminates the copy; with
`maxlength = 0` the destination is not touched. -/
def SafeStrcpy (dest : List Char) (maxlength : Nat) (src : List Char) : List Char :=
  if maxlength = 0 then dest
  else
    let count := if strlen src ≥ maxlength then maxlength - 1 else strlen src
    src.take count ++ NUL :: dest.drop (count + 1)

/-- Library `ke::AString::chars()`: the stored characters followed by a
terminator. -/
def chars (str : List Char) : List Char :=
  str ++ [NUL]

/-- What `geoip_util.h` provides to `extension.cpp`: the database lookup
`lookupString(ip, path)` over the loaded database (it receives the IP string
and the NULL-terminated array of key strings, and returns a `ke::AString`),
and the two parallel country-code tables. -/
structure Env where
  /-- The call `lookupString(ip, path)` on the loaded database. -/
  lookupString : List Char → List (List Char) → List Char
  /-- Table of 2-letter country codes. -/
  GeoIPCountryCode : List (List Char)
  /-- Table of 3-letter country codes, parallel to `GeoIPCountryCode`. -/
  GeoIPCountryCode3 : List (List Char)

/-- Outcome of one native call. -/
structure NativeResult where
  /-- The returned cell. -/
  ret : Int
  /-- The plugin context after the call. -/
  ctx : Context
  /-- The arguments `(ip, path)` of the native's call to `lookupString`. -/
  query : List Char × List (List Char)

/-- A native: `cell_t (*)(IPluginContext *pCtx, const cell_t *params)`, run in
the environment of `geoip_util.h`.  `params[1]`, `params[2]` and `params[4]`
are addresses resolved through the context; `params3` is `params[3]` as the
`size_t` handed to `StringToLocal`. -/
abbrev Native := Env → Context → Nat → NativeResult

/-! ## The natives -/

/-- Source `sm_Geoip_Code2` (extension.cpp:103-117). -/
def sm_Geoip_Code2 : Native := fun env pCtx _ =>
  let ip := StripPort pCtx.ip
  let path := ["country".toList, "iso_code".toList]
  let str := env.lookupString (cstr ip) path
  let ccode := chars str
  { ret := if strlen ccode ≠ 0 then 1 else 0
    ctx := { pCtx with ip := ip, name := StringToLocal pCtx.name 3 ccode }
    query := (cstr ip, path) }

/-- The table scan of `sm_Geoip_Code3` (extension.cpp:130-137), from index `i`
with `n` entries of `GeoIPCountryCode` left: the first entry that `strncmp`
finds equal to `ccode` over 2 characters replaces `ccode` by the entry of
`GeoIPCountryCode3` at the same index. -/
def code3Loop (env : Env) (ccode : List Char) : Nat → Nat → List Char
  | _, 0 => ccode
  | i, n + 1 =>
    if strncmp ccode (env.GeoIPCountryCode.getD i []) 2 = 0 then
      env.GeoIPCountryCode3.getD i []
    else code3Loop env ccode (i + 1) n

/-- Source `sm_Geoip_Code3` (extension.cpp:119-142). -/
def sm_Geoip_Code3 : Native := fun env pCtx _ =>
  let ip := StripPort pCtx.ip
  let path := ["country".toList, "iso_code".toList]
  let str := env.lookupString (cstr ip) path
  let ccode := code3Loop env (chars str) 0 env.GeoIPCountryCode.length
  { ret := if strlen ccode ≠ 0 then 1 else 0
    ctx := { pCtx with ip := ip, name := StringToLocal pCtx.name 4 ccode }
    query := (cstr ip, path) }

/-- Source `sm_Geoip_ContinentCode` (extension.cpp:144-158). -/
def sm_Geoip_ContinentCode : Native := fun env pCtx _ =>
  let ip := StripPort pCtx.ip
  let path := ["continent".toList, "code".toList]
  let str := env.lookupString (cstr ip) path
  let ccode := chars str
  { ret := if strlen ccode ≠ 0 then 1 else 0
    ctx := { pCtx with ip := ip, name := StringToLocal pCtx.name 3 ccode }
    query := (cstr ip, path) }

/-- Source `sm_Geoip_RegionCode` (extension.cpp:160-174). -/
def sm_Geoip_RegionCode : Native := fun env pCtx _ =>
  let ip := StripPort pCtx.ip
  let path := ["subdivisions".toList, "0".toList, "iso_code".toList]
  let str := env.lookupString (cstr ip) path
  let ccode := chars str
  { ret := if strlen ccode ≠ 0 then 1 else 0
    ctx := { pCtx with ip := ip, name := StringToLocal pCtx.name 4 ccode }
    query := (cstr ip, path) }

/-- Source `sm_Geoip_Timezone` (extension.cpp:176-190). -/
def sm_Geoip_Timezone : Native := fun env pCtx params3 =>
  let ip := StripPort pCtx.ip
  let path := ["location".toList, "time_zone".toList]
  let str := env.lookupString (cstr ip) path
  let ccode := chars str
  { ret := if strlen ccode ≠ 0 then 1 else 0
    ctx := { pCtx with ip := ip, name := StringToLocal pCtx.name params3 ccode }
    query := (cstr ip, path) }

/-- Source `sm_Geoip_Country` (extension.cpp:192-210). -/
def sm_Geoip_Country : Native := fun env pCtx params3 =>
  let ip := StripPort pCtx.ip
  let lang := if strlen pCtx.lang = 0 then strcpy pCtx.lang "en".toList else pCtx.lang
  let path := ["country".toList, "names".toList, cstr lang]
  let str := env.lookupString (cstr ip) path
  let ccode := chars str
  { ret := if strlen ccode ≠ 0 then 1 else 0
    ctx := { pCtx with ip := ip, lang := lang, name := StringToLocal pCtx.name params3 ccode }
    query := (cstr ip, path) }

/-- Source `sm_Geoip_Continent` (extension.cpp:212-230). -/
def sm_Geoip_Continent : Native := fun env pCtx params3 =>
  let ip := StripPort pCtx.ip
  let lang := if strlen pCtx.lang = 0 then strcpy pCtx.lang "en".toList else pCtx.lang
  let path := ["continent".toList, "names".toList, cstr lang]
  let str := env.lookupString (cstr ip) path
  let ccode := chars str
  { ret := if strlen ccode ≠ 0 then 1 else 0
    ctx := { pCtx with ip := ip, lang := lang, name := StringToLocal pCtx.name params3 ccode }
    query := (cstr ip, path) }

/-- Source `sm_Geoip_Region` (extension.cpp:232-250). -/
def sm_Geoip_Region : Native := fun env pCtx params3 =>
  let ip := StripPort pCtx.ip
  let lang := if strlen pCtx.lang = 0 then strcpy pCtx.lang "en".toList else pCtx.lang
  let path := ["subdivisions".toList, "0".toList, "names".toList, cstr lang]
  let str := env.lookupString (cstr ip) path
  let ccode := chars str
  { ret := if strlen ccode ≠ 0 then 1 else 0
    ctx := { pCtx with ip := ip, lang := lang, name := StringToLocal pCtx.name params3 ccode }
    query := (cstr ip, path) }

/-- Source `sm_Geoip_City` (extension.cpp:252-270). -/
def sm_Geoip_City : Native := fun env pCtx params3 =>
  let ip := StripPort pCtx.ip
  let lang := if strlen pCtx.lang = 0 then strcpy pCtx.lang "en".toList else pCtx.lang
  let path := ["city".toList, "names".toList, cstr lang]
  let str := env.lookupString (cstr ip) path
  let ccode := chars str
  { ret := if strlen ccode ≠ 0 then 1 else 0
    ctx := { pCtx with ip := ip, lang := lang, name := StringToLocal pCtx.name params3 ccode }
    query := (cstr ip, path) }

/-- Source `geoip_natives` (extension.cpp:272-284), without the closing
`{NULL, NULL}` sentinel. -/
def geoip_natives : List (String × Native) :=
  [ ("GeoipCode2", sm_Geoip_Code2),
    ("GeoipCode3", sm_Geoip_Code3),
    ("GeoipContinentCode", sm_Geoip_ContinentCode),
    ("GeoipRegionCode", sm_Geoip_RegionCode),
    ("GeoipTimezone", sm_Geoip_Timezone),
    ("GeoipCountry", sm_Geoip_Country),
    ("GeoipContinent", sm_Geoip_Continent),
    ("GeoipRegion", sm_Geoip_Region),
    ("GeoipCity", sm_Geoip_City) ]

/-! ## `SDK_OnLoad` -/

/-- One entry of the directory iterated through `IDirectory`. -/
structure DirEntry where
  /-- Answer of `IsEntryFile()`. -/
  isFile : Bool
  /-- Answer of `GetEntryName()`. -/
  name : List Char
deriving DecidableEq

/-- The status `MMDB_SUCCESS` of the database reader library. -/
def MMDB_SUCCESS : Int := 0

/-- The part of `mmdb.metadata` that `SDK_OnLoad` reads. -/
structure Metadata where
  /-- The field `database_type`. -/
  database_type : List Char
  /-- The field `build_epoch`. -/
  build_epoch : Nat
  /-- The strings `languages.names[0 .. languages.count)`. -/
  languages : List (List Char)
deriving DecidableEq

/-- What the host, the C library and the database reader answer during
`SDK_OnLoad`. -/
structure LoadEnv where
  /-- Result of `BuildPath(Path_SM, ..., "configs/geoip")`. -/
  m_GeoipDir : List Char
  /-- Result of `OpenDirectory(m_GeoipDir)`: the entries in iteration order, or `none`
  when the directory cannot be opened. -/
  OpenDirectory : Option (List DirEntry)
  /-- Result of `PathFormat(database, ..., "%s/%s", m_GeoipDir, name)`. -/
  PathFormat : List Char → List Char → List Char
  /-- Status returned by `MMDB_open(database, MMDB_MODE_MMAP, &mmdb)`. -/
  MMDB_open : List Char → Int
  /-- The global `mmdb.metadata` as a successful `MMDB_open` of this path leaves it. -/
  metadata : List Char → Metadata
  /-- The text that `strftime(date, 40, "%F %T UTC", gmtime(&epoch))` leaves in `date`
  for this `build_epoch`, or `none` when it leaves no defined string there (`gmtime`
  answers a null pointer, or the text does not fit `date[40]`). -/
  strftime : Nat → Option (List Char)
  /-- The indeterminate content of the local array `char buf[64]` when it is declared. -/
  buf : List Char

/-- The extension's globals: `mmdb.filename` (null until a database is open)
and whether `geoip_natives` has been handed to the host. -/
structure Extension where
  /-- The global `mmdb.filename`. -/
  filename : Option (List Char)
  /-- Whether `AddNatives(myself, geoip_natives)` has run. -/
  natives : Bool
deriving DecidableEq

/-- Outcome of `SDK_OnLoad`. -/
structure LoadResult where
  /-- The returned flag; `none` when the call does not reach a `return` with defined
  behaviour (the closing log code reads or writes outside a local array). -/
  ret : Option Bool
  /-- The caller's `error` buffer after the call. -/
  error : List Char
  /-- The database paths handed to `MMDB_open`, in call order. -/
  opened : List (List Char)
  /-- The globals after the call. -/
  ext : Extension
  /-- The texts handed to `LogMessage`, in call order. -/
  log : List (List Char)
deriving DecidableEq

/-- The file-name test of `SDK_OnLoad` (extension.cpp:33-34):
`len >= 5 && strcmp(&name[len-5], ".mmdb") == 0`. -/
def isDatabaseName (name : List Char) : Bool :=
  let len := strlen name
  decide (len ≥ 5) && decide (strcmp (name.drop (len - 5)) ".mmdb".toList = 0)

/-- How the directory loop of `SDK_OnLoad` ends. -/
inductive Scan where
  /-- The loop ran out of entries: `hasEntry` is still false. -/
  | exhausted
  /-- The call to `MMDB_open` failed on this path: the function returns from the loop. -/
  | openFailed (database : List Char)
  /-- The call to `MMDB_open` succeeded on this path: `hasEntry = true; break`. -/
  | loaded (database : List Char)
deriving DecidableEq

/-- The `while (dir->MoreFiles())` loop of `SDK_OnLoad` (extension.cpp:28-52). -/
def scanDirectory (env : LoadEnv) : List DirEntry → Scan
  | [] => Scan.exhausted
  | e :: rest =>
    if e.isFile then
      if isDatabaseName e.name then
        let database := env.PathFormat env.m_GeoipDir e.name
        if env.MMDB_open database ≠ MMDB_SUCCESS then Scan.openFailed database
        else Scan.loaded database
      else scanDirectory env rest
    else scanDirectory env rest

/-- The language loop of `SDK_OnLoad` (extension.cpp:72-83), from index `i` on
the remaining names: `strcpy` into `buf` for the first name, `strcat` of a
blank and of the name for the others.  The array bound of `buf` is not
checked here, as it is not in the source; see `fitsBuf`. -/
def languagesLoop : List (List Char) → Nat → List Char → List Char
  | [], _, buf => buf
  | name :: names, i, buf =>
    if i = 0 then languagesLoop names (i + 1) (strcpy buf name)
    else languagesLoop names (i + 1) (strcat (strcat buf " ".toList) name)

/-- The content of `char buf[64]` is a string that ends inside the array: only
then have the writes of the language loop stayed inside the array, and only
then does `LogMessage(..., "%s", buf)` read inside it. -/
def fitsBuf (buf : List Char) : Bool :=
  decide (strlen buf < 64) && decide (strlen buf < buf.length)

/-- Source `GeoIP_Extension::SDK_OnLoad` (extension.cpp:13-88), called with
the buffer `error` of `maxlength` bytes. -/
def SDK_OnLoad (env : LoadEnv) (ext : Extension) (error : List Char) (maxlength : Nat) :
    LoadResult :=
  if ext.filename.isSome then
    { ret := some true, error := error, opened := [], ext := ext, log := [] }
  else
    let notFound : LoadResult :=
      { ret := some false
        error := SafeStrcpy error maxlength "Could not find GeoIP2 database.".toList
        opened := [], ext := ext, log := [] }
    match env.OpenDirectory with
    | none => notFound
    | some dir =>
      match scanDirectory env dir with
      | Scan.exhausted => notFound
      | Scan.openFailed database =>
        { ret := some false
          error := SafeStrcpy error maxlength "Failed to open GeoIP2 database.".toList
          opened := [database], ext := ext, log := [] }
      | Scan.loaded database =>
        let registered : Extension := { filename := some database, natives := true }
        let metadata := env.metadata database
        match env.strftime metadata.build_epoch with
        | none =>
          { ret := none, error := error, opened := [database], ext := registered, log := [] }
        | some date =>
          let loaded := "GeoIP2 database loaded: ".toList ++ cstr metadata.database_type
            ++ " (".toList ++ cstr date ++ ")".toList
          let buf := languagesLoop metadata.languages 0 env.buf
          if fitsBuf buf then
            { ret := some true, error := error, opened := [database], ext := registered
              log := [loaded, "GeoIP2 supported languages: ".toList ++ cstr buf] }
          else
            { ret := none, error := error, opened := [database], ext := registered
              log := [loaded] }

/-! ## Reference notions used by the statements -/

/-- The effective language of a name native: `"en"` for an empty language
string, the caller's language otherwise. -/
def effectiveLang (lang : List Char) : List Char :=
  if cstr lang = [] then "en".toList else cstr lang

/-- The first directory entry that is a file whose name ends in `".mmdb"`. -/
def firstDatabase (dir : List DirEntry) : Option DirEntry :=
  dir.find? (fun e => e.isFile && decide (".mmdb".toList <:+ cstr e.name))

/-- There is no database to open: the directory cannot be opened, or it has no
file entry whose name ends in `".mmdb"`. -/
def NoDatabase (env : LoadEnv) : Prop :=
  env.OpenDirectory = none ∨
    ∃ dir, env.OpenDirectory = some dir ∧
      ∀ e ∈ dir, e.isFile = true → ¬ ".mmdb".toList <:+ cstr e.name

/-- The first file entry whose name ends in `".mmdb"` fails to open. -/
def OpenFails (env : LoadEnv) : Prop :=
  ∃ e, env.OpenDirectory.bind firstDatabase = some e ∧
    env.MMDB_open (env.PathFormat env.m_GeoipDir e.name) ≠ MMDB_SUCCESS

/-- The closing log code of `SDK_OnLoad` runs to completion for this database:
the date text is defined and the language list ends inside `buf[64]`. -/
def LogCompletes (env : LoadEnv) (database : List Char) : Prop :=
  (env.strftime (env.metadata database).build_epoch).isSome = true ∧
  fitsBuf (languagesLoop (env.metadata database).languages 0 env.buf) = true

instance (env : LoadEnv) (database : List Char) : Decidable (LogCompletes env database) := by
  unfold LogCompletes; infer_instance

/-- The language names joined by single blanks. -/
def joined : List (List Char) → List Char
  | [] => []
  | [name] => cstr name
  | name :: names => cstr name ++ ' ' :: joined names

/-- The nine natives with the data that tells them apart: whether `params[4]`
(the language) is read, the key path as a function of the effective language,
the byte count handed to `StringToLocal` as a function of `params[3]`, and
whether the country-code table scan is applied. -/
structure Shape where
  /-- Whether the native reads the language string. -/
  useLang : Bool
  /-- The key path, given the language string after defaulting. -/
  path : List Char → List (List Char)
  /-- The byte count handed to `StringToLocal`, given `params[3]`. -/
  bytes : Nat → Nat
  /-- Whether the result goes through the 2-letter to 3-letter table. -/
  code3 : Bool

/-- The native described by a shape. -/
def Shape.run (s : Shape) : Native := fun env pCtx params3 =>
  let ip := StripPort pCtx.ip
  let lang :=
    if s.useLang then
      (if strlen pCtx.lang = 0 then strcpy pCtx.lang "en".toList else pCtx.lang)
    else pCtx.lang
  let path := s.path (cstr lang)
  let str := env.lookupString (cstr ip) path
  let ccode :=
    if s.code3 then code3Loop env (chars str) 0 env.GeoIPCountryCode.length
    else chars str
  { ret := if strlen ccode ≠ 0 then 1 else 0
    ctx := { pCtx with ip := ip, lang := lang, name := StringToLocal pCtx.name (s.bytes params3) ccode }
    query := (cstr ip, path) }

/-- The shapes of the nine natives, in table order. -/
def shapes : List Shape :=
  [ ⟨false, fun _ => ["country".toList, "iso_code".toList], fun _ => 3, false⟩,
    ⟨false, fun _ => ["country".toList, "iso_code".toList], fun _ => 4, true⟩,
    ⟨false, fun _ => ["continent".toList, "code".toList], fun _ => 3, false⟩,
    ⟨false, fun _ => ["subdivisions".toList, "0".toList, "iso_code".toList], fun _ => 4, false⟩,
    ⟨false, fun _ => ["location".toList, "time_zone".toList], fun n => n, false⟩,
    ⟨true, fun l => ["country".toList, "names".toList, l], fun n => n, false⟩,
    ⟨true, fun l => ["continent".toList, "names".toList, l], fun n => n, false⟩,
    ⟨true, fun l => ["subdivisions".toList, "0".toList, "names".toList, l], fun n => n, false⟩,
    ⟨true, fun l => ["city".toList, "names".toList, l], fun n => n, false⟩ ]

/-- Entry `i` of `GeoIPCountryCode` agrees with `c` on the first two
characters. -/
def Agrees (env : Env) (c : List Char) (i : Nat) : Prop :=
  (cstr (env.GeoIPCountryCode.getD i [])).take 2 = (cstr c).take 2

instance (env : Env) (c : List Char) (i : Nat) : Decidable (Agrees env c i) := by
  unfold Agrees; infer_instance

/-- The chosen result string of a shape: the looked-up string, passed through
the table scan when the shape asks for it. -/
def Shape.ccode (s : Shape) (env : Env) (pCtx : Context) : List Char :=
  if s.code3 then
    code3Loop env (chars (env.lookupString (s.run env pCtx 0).query.1 (s.run env pCtx 0).query.2))
      0 env.GeoIPCountryCode.length
  else chars (env.lookupString (s.run env pCtx 0).query.1 (s.run env pCtx 0).query.2)

/-- The language buffer after a call: defaulted in place when the shape reads
the language and the string is empty. -/
def Shape.langAfter (s : Shape) (lang : List Char) : List Char :=
  if s.useLang then
    (if strlen lang = 0 then strcpy lang "en".toList else lang)
  else lang

/-- Two calls give the same flag, leave the same result buffer and make the
same lookup. -/
def SameOutcome (r1 r2 : NativeResult) : Prop :=
  r1.ret = r2.ret ∧ r1.ctx.name = r2.ctx.name ∧ r1.query = r2.query

/-- A native treats the empty language string as `"en"` and uses a non-empty
language string unchanged as the last key of its lookup path. -/
def DefaultsToEn (f : Native) : Prop :=
  (∀ (env : Env) (pCtx : Context) (n : Nat) (l0 len : List Char),
      cstr l0 = [] → cstr len = "en".toList →
      SameOutcome (f env { pCtx with lang := l0 } n) (f env { pCtx with lang := len } n)) ∧
  (∀ (env : Env) (pCtx : Context) (n : Nat), cstr pCtx.lang ≠ [] →
      (f env pCtx n).query.2.getLast? = some (cstr pCtx.lang))

/-- A native hands `lookupString` the key path `path l`, where `l` is the
effective language of the call. -/
def UsesPath (f : Native) (path : List Char → List (List Char)) : Prop :=
  ∀ (env : Env) (pCtx : Context) (n : Nat),
    (f env pCtx n).query.2 = path (effectiveLang pCtx.lang)

/-- The lookup of a call found nothing: `lookupString` returned the empty
string at the native's query. -/
def Miss (f : Native) (env : Env) (pCtx : Context) (n : Nat) : Prop :=
  env.lookupString (f env pCtx n).query.1 (f env pCtx n).query.2 = []

/-- A call returned 0, left the empty string in the caller's buffer and raised
no native error. -/
def WritesEmpty (pCtx : Context) (r : NativeResult) : Prop :=
  r.ret = 0 ∧ cstr r.ctx.name = [] ∧ r.ctx.nativeError = pCtx.nativeError

/-- The flag of a call is 1 exactly when the caller's buffer holds a non-empty
string, and 0 exactly when it holds the empty string. -/
def FlagMatchesBuffer (r : NativeResult) : Prop :=
  (r.ret = 1 ↔ cstr r.ctx.name ≠ []) ∧ (r.ret = 0 ↔ cstr r.ctx.name = [])

instance (f : Native) (env : Env) (pCtx : Context) (n : Nat) : Decidable (Miss f env pCtx n) := by
  unfold Miss; infer_instance

instance (pCtx : Context) (r : NativeResult) : Decidable (WritesEmpty pCtx r) := by
  unfold WritesEmpty; infer_instance

instance (r : NativeResult) : Decidable (FlagMatchesBuffer r) := by
  unfold FlagMatchesBuffer; infer_instance

instance (r1 r2 : NativeResult) : Decidable (SameOutcome r1 r2) := by
  unfold SameOutcome; infer_instance

/-- The five natives that take no language argument. -/
def codeNatives : List Native :=
  [sm_Geoip_Code2, sm_Geoip_Code3, sm_Geoip_ContinentCode, sm_Geoip_RegionCode,
    sm_Geoip_Timezone]

/-- The four natives that take a language argument. -/
def nameNatives : List Native :=
  [sm_Geoip_Country, sm_Geoip_Continent, sm_Geoip_Region, sm_Geoip_City]

/-- The string a native goes on with once `lookupString` has answered `str`:
the answer itself, or what the table scan of `sm_Geoip_Code3` makes of it. -/
def chosen (env : Env) (scan : Bool) (str : List Char) : List Char :=
  if scan then code3Loop env (chars str) 0 env.GeoIPCountryCode.length else chars str

/-- The outcome `r` of a call from the context `pCtx` is the one computed from
the answer of `lookupString` at the address `addr` and the key path `path`: the
flag is 0 exactly when the string chosen from that answer is empty, and the
caller's buffer is what `StringToLocal` makes of it with `bytes` bytes. -/
def OutcomeFrom (env : Env) (pCtx : Context) (bytes : Nat) (scan : Bool)
    (addr : List Char) (path : List (List Char)) (r : NativeResult) : Prop :=
  r.ret = (if cstr (chosen env scan (env.lookupString addr path)) = [] then 0 else 1) ∧
  r.ctx.name = StringToLocal pCtx.name bytes (chosen env scan (env.lookupString addr path))

instance (env : Env) (pCtx : Context) (bytes : Nat) (scan : Bool) (addr : List Char)
    (path : List (List Char)) (r : NativeResult) :
    Decidable (OutcomeFrom env pCtx bytes scan addr path r) := by
  unfold OutcomeFrom; infer_instance

/-- A native computes its outcome from the answer of `lookupString` at the
port-stripped IP string and the key path `path l`, `l` the effective language
of the call, with `bytes n` bytes for the result and the table scan if `scan`. -/
def LooksUp (f : Native) (path : List Char → List (List Char)) (bytes : Nat → Nat)
    (scan : Bool) : Prop :=
  ∀ (env : Env) (pCtx : Context) (n : Nat),
    OutcomeFrom env pCtx (bytes n) scan (cstr (StripPort pCtx.ip))
      (path (effectiveLang pCtx.lang)) (f env pCtx n)

/-- A native called with an IP string `a ++ ":" ++ p` (no `':'` in `a`) computes
its outcome from the answer of `lookupString` at the address `a`, and called
with an IP string without `':'` from the answer at that string. -/
def PassesStrippedAddress (f : Native) (path : List Char → List (List Char))
    (bytes : Nat → Nat) (scan : Bool) : Prop :=
  (∀ (env : Env) (pCtx : Context) (n : Nat) (a p ip1 : List Char),
      ':' ∉ a → cstr ip1 = a ++ ':' :: p →
      OutcomeFrom env pCtx (bytes n) scan a (path (effectiveLang pCtx.lang))
        (f env { pCtx with ip := ip1 } n)) ∧
  (∀ (env : Env) (pCtx : Context) (n : Nat), ':' ∉ cstr pCtx.ip →
      OutcomeFrom env pCtx (bytes n) scan (cstr pCtx.ip) (path (effectiveLang pCtx.lang))
        (f env pCtx n))

/-- A name native computes its outcome from the answer of `lookupString` at
the key path `keys ++ ["en"]` when the language string is empty, and at
`keys ++ [L]` when the language string is the non-empty `L`. -/
def UsesLanguage (f : Native) (keys : List (List Char)) : Prop :=
  (∀ (env : Env) (pCtx : Context) (n : Nat), cstr pCtx.lang = [] →
      OutcomeFrom env pCtx n false (cstr (StripPort pCtx.ip)) (keys ++ ["en".toList])
        (f env pCtx n)) ∧
  (∀ (env : Env) (pCtx : Context) (n : Nat), cstr pCtx.lang ≠ [] →
      OutcomeFrom env pCtx n false (cstr (StripPort pCtx.ip)) (keys ++ [cstr pCtx.lang])
        (f env pCtx n))

/-! ## The natives on the plugin memory

The natives above keep the three strings of a call as separate buffers.  The
source resolves `params[1]`, `params[2]` and `params[4]` into one plugin
memory, where they may overlap.  The definitions below embed the natives once
more, on that memory: a list of characters in which an address is an offset. -/

/-- The cells of `params` read by the natives. -/
structure Params where
  /-- The cell `params[1]`: address of the IP string. -/
  ip : Nat
  /-- The cell `params[2]`: address of the result buffer. -/
  name : Nat
  /-- The cell `params[3]`: length of the result buffer, as a `size_t`. -/
  maxlen : Nat
  /-- The cell `params[4]`: address of the language string. -/
  lang : Nat
deriving DecidableEq

/-- Host routine `IPluginContext::LocalToString(addr, &p)`: the pointer into
the plugin memory at offset `addr`, seen as the characters from there onwards. -/
def LocalToString (mem : List Char) (addr : Nat) : List Char :=
  mem.drop addr

/-- The plugin memory after a write through the pointer at offset `addr` has
turned the characters from there onwards into `buf`. -/
def writeThrough (mem : List Char) (addr : Nat) (buf : List Char) : List Char :=
  mem.take addr ++ buf

/-- Outcome of one native call on the plugin memory. -/
structure MemoryResult where
  /-- The returned cell. -/
  ret : Int
  /-- The plugin memory after the call. -/
  mem : List Char
deriving DecidableEq

/-- A native on the plugin memory. -/
abbrev MemoryNative := Env → List Char → Params → MemoryResult

/-- Source `sm_Geoip_Code2` (extension.cpp:103-117), on the plugin memory. -/
def InMemory.sm_Geoip_Code2 : MemoryNative := fun env mem params =>
  let ip := params.ip
  let mem := writeThrough mem ip (StripPort (LocalToString mem ip))
  let path := ["country".toList, "iso_code".toList]
  let str := env.lookupString (cstr (LocalToString mem ip)) path
  let ccode := chars str
  { ret := if strlen ccode ≠ 0 then 1 else 0
    mem := writeThrough mem params.name
      (StringToLocal (LocalToString mem params.name) 3 ccode) }

/-- Source `sm_Geoip_Code3` (extension.cpp:119-142), on the plugin memory. -/
def InMemory.sm_Geoip_Code3 : MemoryNative := fun env mem params =>
  let ip := params.ip
  let mem := writeThrough mem ip (StripPort (LocalToString mem ip))
  let path := ["country".toList, "iso_code".toList]
  let str := env.lookupString (cstr (LocalToString mem ip)) path
  let ccode := code3Loop env (chars str) 0 env.GeoIPCountryCode.length
  { ret := if strlen ccode ≠ 0 then 1 else 0
    mem := writeThrough mem params.name
      (StringToLocal (LocalToString mem params.name) 4 ccode) }

/-- Source `sm_Geoip_ContinentCode` (extension.cpp:144-158), on the plugin memory. -/
def InMemory.sm_Geoip_ContinentCode : MemoryNative := fun env mem params =>
  let ip := params.ip
  let mem := writeThrough mem ip (StripPort (LocalToString mem ip))
  let path := ["continent".toList, "code".toList]
  let str := env.lookupString (cstr (LocalToString mem ip)) path
  let ccode := chars str
  { ret := if strlen ccode ≠ 0 then 1 else 0
    mem := writeThrough mem params.name
      (StringToLocal (LocalToString mem params.name) 3 ccode) }

/-- Source `sm_Geoip_RegionCode` (extension.cpp:160-174), on the plugin memory. -/
def InMemory.sm_Geoip_RegionCode : MemoryNative := fun env mem params =>
  let ip := params.ip
  let mem := writeThrough mem ip (StripPort (LocalToString mem ip))
  let path := ["subdivisions".toList, "0".toList, "iso_code".toList]
  let str := env.lookupString (cstr (LocalToString mem ip)) path
  let ccode := chars str
  { ret := if strlen ccode ≠ 0 then 1 else 0
    mem := writeThrough mem params.name
      (StringToLocal (LocalToString mem params.name) 4 ccode) }

/-- Source `sm_Geoip_Timezone` (extension.cpp:176-190), on the plugin memory. -/
def InMemory.sm_Geoip_Timezone : MemoryNative := fun env mem params =>
  let ip := params.ip
  let mem := writeThrough mem ip (StripPort (LocalToString mem ip))
  let path := ["location".toList, "time_zone".toList]
  let str := env.lookupString (cstr (LocalToString mem ip)) path
  let ccode := chars str
  { ret := if strlen ccode ≠ 0 then 1 else 0
    mem := writeThrough mem params.name
      (StringToLocal (LocalToString mem params.name) params.maxlen ccode) }

/-- Source `sm_Geoip_Country` (extension.cpp:192-210), on the plugin memory. -/
def InMemory.sm_Geoip_Country : MemoryNative := fun env mem params =>
  let ip := params.ip
  let lang := params.lang
  let mem := writeThrough mem ip (StripPort (LocalToString mem ip))
  let mem :=
    if strlen (LocalToString mem lang) = 0 then
      writeThrough mem lang (strcpy (LocalToString mem lang) "en".toList)
    else mem
  let path := ["country".toList, "names".toList, cstr (LocalToString mem lang)]
  let str := env.lookupString (cstr (LocalToString mem ip)) path
  let ccode := chars str
  { ret := if strlen ccode ≠ 0 then 1 else 0
    mem := writeThrough mem params.name
      (StringToLocal (LocalToString mem params.name) params.maxlen ccode) }

/-- Source `sm_Geoip_Continent` (extension.cpp:212-230), on the plugin memory. -/
def InMemory.sm_Geoip_Continent : MemoryNative := fun env mem params =>
  let ip := params.ip
  let lang := params.lang
  let mem := writeThrough mem ip (StripPort (LocalToString mem ip))
  let mem :=
    if strlen (LocalToString mem lang) = 0 then
      writeThrough mem lang (strcpy (LocalToString mem lang) "en".toList)
    else mem
  let path := ["continent".toList, "names".toList, cstr (LocalToString mem lang)]
  let str := env.lookupString (cstr (LocalToString mem ip)) path
  let ccode := chars str
  { ret := if strlen ccode ≠ 0 then 1 else 0
    mem := writeThrough mem params.name
      (StringToLocal (LocalToString mem params.name) params.maxlen ccode) }

/-- Source `sm_Geoip_Region` (extension.cpp:232-250), on the plugin memory. -/
def InMemory.sm_Geoip_Region : MemoryNative := fun env mem params =>
  let ip := params.ip
  let lang := params.lang
  let mem := writeThrough mem ip (StripPort (LocalToString mem ip))
  let mem :=
    if strlen (LocalToString mem lang) = 0 then
      writeThrough mem lang (strcpy (LocalToString mem lang) "en".toList)
    else mem
  let path := ["subdivisions".toList, "0".toList, "names".toList, cstr (LocalToString mem lang)]
  let str := env.lookupString (cstr (LocalToString mem ip)) path
  let ccode := chars str
  { ret := if strlen ccode ≠ 0 then 1 else 0
    mem := writeThrough mem params.name
      (StringToLocal (LocalToString mem params.name) params.maxlen ccode) }

/-- Source `sm_Geoip_City` (extension.cpp:252-270), on the plugin memory. -/
def InMemory.sm_Geoip_City : MemoryNative := fun env mem params =>
  let ip := params.ip
  let lang := params.lang
  let mem := writeThrough mem ip (StripPort (LocalToString mem ip))
  let mem :=
    if strlen (LocalToString mem lang) = 0 then
      writeThrough mem lang (strcpy (LocalToString mem lang) "en".toList)
    else mem
  let path := ["city".toList, "names".toList, cstr (LocalToString mem lang)]
  let str := env.lookupString (cstr (LocalToString mem ip)) path
  let ccode := chars str
  { ret := if strlen ccode ≠ 0 then 1 else 0
    mem := writeThrough mem params.name
      (StringToLocal (LocalToString mem params.name) params.maxlen ccode) }

/-- The intervals `[a, a + m)` and `[b, b + n)` of addresses do not overlap. -/
def Apart (a m b n : Nat) : Prop :=
  a + m ≤ b ∨ b + n ≤ a

instance (a m b n : Nat) : Decidable (Apart a m b n) := by
  unfold Apart; infer_instance

/-- The memory `mem'` differs from `mem` at most at the addresses of
`[a, a + k)`. -/
def DiffersWithin (mem mem' : List Char) (a k : Nat) : Prop :=
  ∀ i, i < a ∨ a + k ≤ i → mem'[i]? = mem[i]?

/-- The bytes that a name native may write for a language string of length
`m`: the 3 bytes of `"en"` and its terminator when the string is empty, none
otherwise; the region is the string with its terminator in that case. -/
def langRegion (m : Nat) : Nat :=
  if m = 0 then 3 else m + 1

/-- The native of a shape, on the plugin memory. -/
def Shape.runInMemory (s : Shape) : MemoryNative := fun env mem params =>
  let ip := params.ip
  let lang := params.lang
  let mem := writeThrough mem ip (StripPort (LocalToString mem ip))
  let mem :=
    if s.useLang then
      (if strlen (LocalToString mem lang) = 0 then
        writeThrough mem lang (strcpy (LocalToString mem lang) "en".toList)
      else mem)
    else mem
  let path := s.path (cstr (LocalToString mem lang))
  let str := env.lookupString (cstr (LocalToString mem ip)) path
  let ccode :=
    if s.code3 then code3Loop env (chars str) 0 env.GeoIPCountryCode.length
    else chars str
  { ret := if strlen ccode ≠ 0 then 1 else 0
    mem := writeThrough mem params.name
      (StringToLocal (LocalToString mem params.name) (s.bytes params.maxlen) ccode) }

/-- The plugin memory after `StripPort(ip)`. -/
def strippedMemory (mem : List Char) (params : Params) : List Char :=
  writeThrough mem params.ip (StripPort (LocalToString mem params.ip))

/-- The plugin memory after `if (strlen(lang) == 0) strcpy(lang, "en")`, for a
shape that reads the language; the memory as it was, for the others. -/
def defaultedMemory (s : Shape) (mem : List Char) (params : Params) : List Char :=
  if s.useLang then
    (if strlen (LocalToString mem params.lang) = 0 then
      writeThrough mem params.lang (strcpy (LocalToString mem params.lang) "en".toList)
    else mem)
  else mem

/-- The first `n` bytes of the plugin memory from the address `a`. -/
def region (mem : List Char) (a n : Nat) : List Char :=
  (mem.drop a).take n

/-- On a call whose IP string and result buffer lie in memory and do not
overlap, the native `f` (writing `bytes n` bytes for `params[3] = n`) leaves
the IP string port-stripped in place and touches nothing outside the IP string
and the result buffer. -/
def StripsInPlace (f : MemoryNative) (bytes : Nat → Nat) : Prop :=
  ∀ (env : Env) (mem : List Char) (params : Params),
    params.ip + strlen (LocalToString mem params.ip) < mem.length →
    params.name + bytes params.maxlen ≤ mem.length →
    Apart params.ip (strlen (LocalToString mem params.ip) + 1)
      params.name (bytes params.maxlen) →
    region (f env mem params).mem params.ip (strlen (LocalToString mem params.ip) + 1)
      = (StripPort (LocalToString mem params.ip)).take
          (strlen (LocalToString mem params.ip) + 1) ∧
    cstr (LocalToString (f env mem params).mem params.ip)
      = (cstr (LocalToString mem params.ip)).takeWhile (fun c => c != ':') ∧
    ∀ i, ¬ (params.ip ≤ i ∧ i < params.ip + (strlen (LocalToString mem params.ip) + 1)) →
      ¬ (params.name ≤ i ∧ i < params.name + bytes params.maxlen) →
      (f env mem params).mem[i]? = mem[i]?

/-- On a call whose IP string, language string and result buffer lie in memory
and do not overlap one another, the name native `f` leaves the IP string
port-stripped in place, leaves `"en"` in an empty language string and a
non-empty language string as it was, and touches nothing outside the IP
string, the language string (3 bytes when it is empty) and the result buffer. -/
def DefaultsLangInPlace (f : MemoryNative) : Prop :=
  ∀ (env : Env) (mem : List Char) (params : Params),
    params.ip + strlen (LocalToString mem params.ip) < mem.length →
    params.lang + strlen (LocalToString mem params.lang) < mem.length →
    params.name + params.maxlen ≤ mem.length →
    Apart params.ip (strlen (LocalToString mem params.ip) + 1) params.name params.maxlen →
    Apart params.ip (strlen (LocalToString mem params.ip) + 1)
      params.lang (langRegion (strlen (LocalToString mem params.lang))) →
    Apart params.lang (langRegion (strlen (LocalToString mem params.lang)))
      params.name params.maxlen →
    region (f env mem params).mem params.ip (strlen (LocalToString mem params.ip) + 1)
      = (StripPort (LocalToString mem params.ip)).take
          (strlen (LocalToString mem params.ip) + 1) ∧
    cstr (LocalToString (f env mem params).mem params.ip)
      = (cstr (LocalToString mem params.ip)).takeWhile (fun c => c != ':') ∧
    (cstr (LocalToString mem params.lang) = [] →
      region (f env mem params).mem params.lang 3 = ['e', 'n', NUL] ∧
      cstr (LocalToString (f env mem params).mem params.lang) = "en".toList) ∧
    (cstr (LocalToString mem params.lang) ≠ [] →
      region (f env mem params).mem params.lang (strlen (LocalToString mem params.lang) + 1)
        = region mem params.lang (strlen (LocalToString mem params.lang) + 1) ∧
      cstr (LocalToString (f env mem params).mem params.lang)
        = cstr (LocalToString mem params.lang)) ∧
    ∀ i, ¬ (params.ip ≤ i ∧ i < params.ip + (strlen (LocalToString mem params.ip) + 1)) →
      ¬ (params.lang ≤ i ∧
          i < params.lang + langRegion (strlen (LocalToString mem params.lang))) →
      ¬ (params.name ≤ i ∧ i < params.name + params.maxlen) →
      (f env mem params).mem[i]? = mem[i]?

/-- The buffers of a call on the plugin memory, taken one by one: what the
natives on separate buffers are run on. -/
def buffersOf (mem : List Char) (params : Params) (err : Option (List Char)) : Context :=
  { ip := LocalToString mem params.ip
    name := LocalToString mem params.name
    lang := LocalToString mem params.lang
    nativeError := err }

/-- On a call whose IP string, result buffer and (when `usesLang`) language
string lie in the plugin memory without overlapping, the native `f` on the
memory and the native `g` on separate buffers return the same flag and leave
the same strings: IP string, result string (for a result buffer of at least
one byte) and language string. -/
def AgreesWithBuffers (f : MemoryNative) (g : Native) (bytes : Nat → Nat) (usesLang : Bool) :
    Prop :=
  ∀ (env : Env) (mem : List Char) (params : Params) (err : Option (List Char)),
    params.ip + strlen (LocalToString mem params.ip) < mem.length →
    params.name + bytes params.maxlen ≤ mem.length →
    Apart params.ip (strlen (LocalToString mem params.ip) + 1)
      params.name (bytes params.maxlen) →
    (usesLang = true →
      params.lang + strlen (LocalToString mem params.lang) < mem.length ∧
      Apart params.ip (strlen (LocalToString mem params.ip) + 1)
        params.lang (langRegion (strlen (LocalToString mem params.lang))) ∧
      Apart params.lang (langRegion (strlen (LocalToString mem params.lang)))
        params.name (bytes params.maxlen)) →
    (f env mem params).ret = (g env (buffersOf mem params err) params.maxlen).ret ∧
    cstr (LocalToString (f env mem params).mem params.ip)
      = cstr (g env (buffersOf mem params err) params.maxlen).ctx.ip ∧
    (1 ≤ bytes params.maxlen →
      cstr (LocalToString (f env mem params).mem params.name)
        = cstr (g env (buffersOf mem params err) params.maxlen).ctx.name) ∧
    (usesLang = true →
      cstr (LocalToString (f env mem params).mem params.lang)
        = cstr (g env (buffersOf mem params err) params.maxlen).ctx.lang)

/-! ## Sample inputs -/

/-- A sample database: the address `1.2.3.4` resolves to France, every other
address and key path resolves to nothing. -/
def sampleLookup : List Char → List (List Char) → List Char := fun ip path =>
  if ip = "1.2.3.4".toList then
    if path = ["country".toList, "iso_code".toList] then "FR".toList
    else if path = ["continent".toList, "code".toList] then "EU".toList
    else if path = ["location".toList, "time_zone".toList] then "Europe/Paris".toList
    else if path = ["country".toList, "names".toList, "en".toList] then "France".toList
    else if path = ["country".toList, "names".toList, "de".toList] then "Frankreich".toList
    else []
  else []

/-- A sample environment: the sample database and a three-entry table pair. -/
def sampleEnv : Env :=
  { lookupString := sampleLookup
    GeoIPCountryCode := ["AP".toList, "EU".toList, "FR".toList]
    GeoIPCountryCode3 := ["AP".toList, "EU".toList, "FRA".toList] }

/-- A sample caller: address with a port suffix, a 16-byte result buffer with
old content, and an empty language string. -/
def sampleCtx : Context :=
  { ip := "1.2.3.4:27015".toList ++ [NUL]
    name := "old".toList ++ List.replicate 13 NUL
    lang := [NUL, NUL, NUL, NUL]
    nativeError := none }

/-- The sample environment with a database that answers differently away from
the address `1.2.3.4`. -/
def sampleEnvOther : Env :=
  { sampleEnv with
    lookupString := fun ip path =>
      if ip = "1.2.3.4".toList then sampleLookup ip path else "ZZ".toList }

/-- A table pair whose first 2-letter entry is empty, over a database that
resolves nothing. -/
def gapEnv : Env :=
  { lookupString := fun _ _ => []
    GeoIPCountryCode := [[], "FR".toList]
    GeoIPCountryCode3 := ["N/A".toList, "FRA".toList] }

/-- A table pair whose 3-letter column holds a 4-character entry, over the
sample database. -/
def longEntryEnv : Env :=
  { lookupString := sampleLookup
    GeoIPCountryCode := ["AP".toList, "FR".toList]
    GeoIPCountryCode3 := ["AP".toList, "FRAN".toList] }

/-- A sample load environment: a directory with a text file, a
sub-directory named like a database, and two database files; every open
succeeds, and the database lists eight languages. -/
def sampleLoadEnv : LoadEnv :=
  { m_GeoipDir := "configs/geoip".toList
    OpenDirectory := some
      [ ⟨true, "README.txt".toList⟩, ⟨false, "old.mmdb".toList⟩,
        ⟨true, "GeoLite2-City.mmdb".toList⟩, ⟨true, "GeoLite2-Country.mmdb".toList⟩ ]
    PathFormat := fun dir name => dir ++ '/' :: name
    MMDB_open := fun _ => MMDB_SUCCESS
    metadata := fun _ =>
      { database_type := "GeoLite2-City".toList
        build_epoch := 1700000000
        languages := ["de".toList, "en".toList, "es".toList, "fr".toList, "ja".toList,
          "pt-BR".toList, "ru".toList, "zh-CN".toList] }
    strftime := fun _ => some "2023-11-14 22:13:20 UTC".toList
    buf := List.replicate 64 'x' }

/-- A load environment whose directory cannot be opened. -/
def noDirectoryEnv : LoadEnv :=
  { sampleLoadEnv with OpenDirectory := none }

/-- A sample plugin memory: the IP string `"1.2.3.4:27015"` in 16 bytes at
address 0, a 16-byte result buffer with old content at address 16, and an
empty language string in 4 bytes at address 32. -/
def sampleMemory : List Char :=
  "1.2.3.4:27015".toList ++ List.replicate 3 NUL
    ++ ("old".toList ++ List.replicate 13 NUL) ++ List.replicate 4 NUL

/-- The parameters of a call on `sampleMemory`: IP string at 0, result buffer
of 16 bytes at 16, language string at 32. -/
def sampleParams : Params :=
  { ip := 0, name := 16, maxlen := 16, lang := 32 }

/-- A plugin memory for a call that passes one array as IP string and as
result buffer: the 16-byte array `"1.2.3.4:27015"` at address 0, and the
language string `"en"` at address 16. -/
def sharedMemory : List Char :=
  "1.2.3.4:27015".toList ++ List.replicate 3 NUL ++ ("en".toList ++ [NUL, NUL])

/-- A plugin memory for a call whose language argument is the tail of the IP
array: the IP string `"1.2.3.4"` in 16 bytes at address 0, its terminator at
address 7, and a 16-byte result buffer at address 16. -/
def tailMemory : List Char :=
  "1.2.3.4".toList ++ List.replicate 9 NUL ++ List.replicate 16 NUL

/-- A plugin memory for a call that passes one array as language string and
as result buffer: the IP string `"1.2.3.4"` in 8 bytes at address 0, and the
16-byte array `"de"` at address 8. -/
def languageMemory : List Char :=
  "1.2.3.4".toList ++ [NUL] ++ ("de".toList ++ List.replicate 14 NUL)

/-- The sample load environment with a database that lists 22 two-letter
languages: joined by blanks they take 65 characters. -/
def crowdedLoadEnv : LoadEnv :=
  { sampleLoadEnv with
    metadata := fun _ =>
      { database_type := "GeoLite2-City".toList
        build_epoch := 1700000000
        languages := List.replicate 22 "xx".toList } }

/-! ## Lemmas on C strings -/

theorem natives_eq_shapes : geoip_natives.map Prod.snd = shapes.map Shape.run := rfl

theorem mem_natives_shape {e : String × Native} (h : e ∈ geoip_natives) :
    ∃ s ∈ shapes, e.2 = s.run := by
  have h1 : e.2 ∈ geoip_natives.map Prod.snd := List.mem_map_of_mem _ h
  rw [natives_eq_shapes] at h1
  obtain ⟨s, hs, he⟩ := List.mem_map.1 h1
  exact ⟨s, hs, he.symm⟩

theorem NUL_ne_colon : NUL ≠ ':' := by decide

theorem cstr_nil : cstr [] = [] := rfl

theorem cstr_cons (c : Char) (s : List Char) :
    cstr (c :: s) = if c = NUL then [] else c :: cstr s := by
  by_cases h : c = NUL <;> simp [cstr, List.takeWhile_cons, h]

theorem NUL_not_mem_cstr (s : List Char) : NUL ∉ cstr s := by
  intro h
  have := List.mem_takeWhile_imp h
  simp at this

theorem cstr_eq_self {s : List Char} (h : NUL ∉ s) : cstr s = s := by
  unfold cstr
  rw [List.takeWhile_eq_self_iff]
  intro x hx
  have : x ≠ NUL := fun e => h (e ▸ hx)
  simpa using this

theorem cstr_append_NUL {s : List Char} (t : List Char) (h : NUL ∉ s) :
    cstr (s ++ NUL :: t) = s := by
  induction s with
  | nil => simp [cstr_cons, cstr_nil]
  | cons a s ih =>
    have ha : a ≠ NUL := fun e => h (by simp [e])
    have hs : NUL ∉ s := fun m => h (List.mem_cons_of_mem _ m)
    simp [cstr_cons, ha, ih hs]

theorem cstr_chars (str : List Char) : cstr (chars str) = cstr str := by
  induction str with
  | nil => simp [chars, cstr_cons, cstr_nil]
  | cons a s ih =>
    have : chars (a :: s) = a :: chars s := rfl
    rw [this, cstr_cons, cstr_cons, ih]

theorem cstr_strcpy (dst src : List Char) : cstr (strcpy dst src) = cstr src :=
  cstr_append_NUL _ (NUL_not_mem_cstr src)

theorem take_eq_take_cstr (s : List Char) (k : Nat) (h : k ≤ (cstr s).length) :
    s.take k = (cstr s).take k := by
  induction s generalizing k with
  | nil => simp [cstr_nil]
  | cons a s ih =>
    cases k with
    | zero => simp
    | succ k =>
      by_cases ha : a = NUL
      · simp [cstr_cons, ha] at h
      · simp only [cstr_cons, ha, if_false, List.length_cons, Nat.add_le_add_iff_right] at h
        simp [cstr_cons, ha, ih k h]

theorem cstr_StringToLocal (dest source : List Char) {bytes : Nat} (h : bytes ≠ 0) :
    cstr (StringToLocal dest bytes source) = (cstr source).take (bytes - 1) := by
  unfold StringToLocal strlen
  simp only [h, if_false]
  by_cases hb : (cstr source).length ≥ bytes
  · simp only [hb, if_true]
    rw [take_eq_take_cstr source (bytes - 1) (by omega)]
    exact cstr_append_NUL _ (fun m => NUL_not_mem_cstr source (List.mem_of_mem_take m))
  · simp only [hb, if_false]
    rw [take_eq_take_cstr source _ (le_refl _), List.take_length,
      List.take_of_length_le (by omega)]
    exact cstr_append_NUL _ (NUL_not_mem_cstr source)

theorem strlen_eq_zero (s : List Char) : strlen s = 0 ↔ cstr s = [] := by
  simp [strlen]

theorem cstr_append {a : List Char} (t : List Char) (h : NUL ∉ a) :
    cstr (a ++ t) = a ++ cstr t := by
  induction a with
  | nil => simp
  | cons b a ih =>
    have hb : b ≠ NUL := fun e => h (by simp [e])
    have ha : NUL ∉ a := fun m => h (List.mem_cons_of_mem _ m)
    simp [cstr_cons, hb, ih ha]

/-! ## Lemmas on `StripPort` -/

theorem strchr_colon_none {s : List Char} (h : ':' ∉ cstr s) : strchr s ':' = none := by
  induction s with
  | nil => rfl
  | cons b s ih =>
    by_cases hb : b = NUL
    · have : b ≠ ':' := by rw [hb]; exact NUL_ne_colon
      simp [strchr, hb, this]
      intro e; exact absurd e NUL_ne_colon
    · simp only [cstr_cons, hb, if_false, List.mem_cons, not_or] at h
      have hc : b ≠ ':' := fun e => h.1 e.symm
      simp [strchr, hb, hc, ih h.2]

theorem strchr_colon_some {a : List Char} (t : List Char) (hc : ':' ∉ a) (hn : NUL ∉ a) :
    strchr (a ++ ':' :: t) ':' = some a.length := by
  induction a with
  | nil => simp [strchr]
  | cons b a ih =>
    have hb : b ≠ ':' := fun e => hc (by simp [e])
    have hb0 : b ≠ NUL := fun e => hn (by simp [e])
    have hc1 : ':' ∉ a := fun m => hc (List.mem_cons_of_mem _ m)
    have hn1 : NUL ∉ a := fun m => hn (List.mem_cons_of_mem _ m)
    simp [strchr, hb, hb0, ih hc1 hn1]

/-- Every buffer either holds a string without `':'`, or splits at the first
`':'` of its string. -/
theorem split_colon (s : List Char) :
    ':' ∉ cstr s ∨ ∃ a t, s = a ++ ':' :: t ∧ ':' ∉ a ∧ NUL ∉ a := by
  induction s with
  | nil => left; simp [cstr_nil]
  | cons b s ih =>
    by_cases hc : b = ':'
    · right; exact ⟨[], s, by simp [hc], by simp, by simp⟩
    · by_cases hb : b = NUL
      · left; simp [cstr_cons, hb]
      · rcases ih with h | ⟨a, t, hs, h1, h2⟩
        · left
          simp only [cstr_cons, hb, if_false, List.mem_cons, not_or]
          exact ⟨fun e => hc e.symm, h⟩
        · right
          refine ⟨b :: a, t, by simp [hs], ?_, ?_⟩
          · simp only [List.mem_cons, not_or]; exact ⟨fun e => hc e.symm, h1⟩
          · simp only [List.mem_cons, not_or]; exact ⟨fun e => hb e.symm, h2⟩

theorem StripPort_of_no_colon {s : List Char} (h : ':' ∉ cstr s) : StripPort s = s := by
  simp [StripPort, strchr_colon_none h]

theorem StripPort_of_colon {a : List Char} (t : List Char) (hc : ':' ∉ a) (hn : NUL ∉ a) :
    StripPort (a ++ ':' :: t) = a ++ NUL :: t := by
  simp [StripPort, strchr_colon_some t hc hn]

theorem takeWhile_colon {a : List Char} (t : List Char) (hc : ':' ∉ a) :
    (a ++ ':' :: t).takeWhile (fun c => c != ':') = a := by
  induction a with
  | nil => simp
  | cons b a ih =>
    have hb : b ≠ ':' := fun e => hc (by simp [e])
    have hc1 : ':' ∉ a := fun m => hc (List.mem_cons_of_mem _ m)
    simp [List.takeWhile_cons, hb, ih hc1]

theorem takeWhile_no_colon {a : List Char} (hc : ':' ∉ a) :
    a.takeWhile (fun c => c != ':') = a := by
  rw [List.takeWhile_eq_self_iff]
  intro x hx
  have : x ≠ ':' := fun e => hc (e ▸ hx)
  simpa using this

/-- The string left by `StripPort` is the part of the string before its first
`':'`. -/
theorem cstr_StripPort (s : List Char) :
    cstr (StripPort s) = (cstr s).takeWhile (fun c => c != ':') := by
  rcases split_colon s with h | ⟨a, t, hs, hc, hn⟩
  · rw [StripPort_of_no_colon h, takeWhile_no_colon h]
  · subst hs
    rw [StripPort_of_colon t hc hn, cstr_append_NUL t hn, cstr_append _ hn, cstr_cons]
    simp only [NUL_ne_colon.symm, if_false]
    exact (takeWhile_colon _ hc).symm

theorem colon_not_mem_cstr_StripPort (s : List Char) : ':' ∉ cstr (StripPort s) := by
  rw [cstr_StripPort]
  intro h
  have := List.mem_takeWhile_imp h
  simp at this

theorem StripPort_idem (s : List Char) : StripPort (StripPort s) = StripPort s :=
  StripPort_of_no_colon (colon_not_mem_cstr_StripPort s)

/-- When the string held by a buffer is `a ++ ":" ++ p` with no `':'` in `a`,
`StripPort` leaves the string `a`. -/
theorem cstr_StripPort_of_eq {s a p : List Char} (hs : cstr s = a ++ ':' :: p)
    (hc : ':' ∉ a) : cstr (StripPort s) = a := by
  rw [cstr_StripPort, hs, takeWhile_colon p hc]

theorem cstr_StripPort_of_not_mem {s : List Char} (hc : ':' ∉ cstr s) :
    cstr (StripPort s) = cstr s := by
  rw [StripPort_of_no_colon hc]

/-! ## Lemmas on `strcmp` and `strncmp` -/

theorem toNat_eq_iff (a b : Char) : a.toNat = b.toNat ↔ a = b := by
  constructor
  · intro h
    have := congrArg Char.ofNat h
    simpa using this
  · intro h; rw [h]

theorem toNat_eq_zero_iff (a : Char) : a.toNat = 0 ↔ a = NUL := by
  have : (0 : Nat) = NUL.toNat := by decide
  rw [this, toNat_eq_iff]

theorem toNat_sub_eq_zero_iff (a b : Char) : (a.toNat : Int) - b.toNat = 0 ↔ a = b := by
  rw [← toNat_eq_iff]
  omega

/-- The function `strncmp` answers 0 exactly when the two strings agree on their first `n`
characters. -/
theorem strncmp_eq_zero_iff (n : Nat) (a b : List Char) :
    strncmp a b n = 0 ↔ (cstr a).take n = (cstr b).take n := by
  induction n generalizing a b with
  | zero => simp [strncmp]
  | succ n ih =>
    cases a with
    | nil =>
      cases b with
      | nil => simp [strncmp]
      | cons y bs =>
        by_cases hy : y = NUL
        · simp [strncmp, cstr_cons, cstr_nil, hy]; decide
        · have : ¬ y.toNat = 0 := fun e => hy ((toNat_eq_zero_iff y).1 e)
          simp [strncmp, cstr_cons, cstr_nil, hy]
          omega
    | cons x as =>
      cases b with
      | nil =>
        by_cases hx : x = NUL
        · simp [strncmp, cstr_cons, cstr_nil, hx]; decide
        · have : ¬ x.toNat = 0 := fun e => hx ((toNat_eq_zero_iff x).1 e)
          simp [strncmp, cstr_cons, cstr_nil, hx]
          omega
      | cons y bs =>
        by_cases hxy : x = y
        · subst hxy
          by_cases hx : x = NUL
          · simp [strncmp, cstr_cons, hx]
          · simp [strncmp, cstr_cons, hx, ih as bs]
        · have hd : ¬ ((x.toNat : Int) - y.toNat = 0) := fun e =>
            hxy ((toNat_sub_eq_zero_iff x y).1 e)
          by_cases hx : x = NUL
          · have hy : y ≠ NUL := fun e => hxy (hx.trans e.symm)
            simp [strncmp, cstr_cons, hx, hy, hxy, hd]
            rw [← hx]; exact ⟨hxy, hd⟩
          · by_cases hy : y = NUL
            · simp [strncmp, cstr_cons, hx, hy, hxy, hd]
              rw [← hy]; exact hd
            · simp [strncmp, cstr_cons, hx, hy, hxy, hd]

/-- The function `strcmp` answers 0 exactly when the two strings are equal. -/
theorem strcmp_eq_zero_iff (a b : List Char) : strcmp a b = 0 ↔ cstr a = cstr b := by
  induction a generalizing b with
  | nil =>
    cases b with
    | nil => simp [strcmp]
    | cons y bs =>
      by_cases hy : y = NUL
      · simp [strcmp, cstr_cons, cstr_nil, hy]; decide
      · have : ¬ y.toNat = 0 := fun e => hy ((toNat_eq_zero_iff y).1 e)
        simp [strcmp, cstr_cons, cstr_nil, hy]
        omega
  | cons x as ih =>
    cases b with
    | nil =>
      by_cases hx : x = NUL
      · simp [strcmp, cstr_cons, cstr_nil, hx]; decide
      · have : ¬ x.toNat = 0 := fun e => hx ((toNat_eq_zero_iff x).1 e)
        simp [strcmp, cstr_cons, cstr_nil, hx]
        omega
    | cons y bs =>
      by_cases hxy : x = y
      · subst hxy
        by_cases hx : x = NUL
        · simp [strcmp, cstr_cons, hx]
        · simp [strcmp, cstr_cons, hx, ih bs]
      · have hd : ¬ ((x.toNat : Int) - y.toNat = 0) := fun e =>
          hxy ((toNat_sub_eq_zero_iff x y).1 e)
        by_cases hx : x = NUL
        · have hy : y ≠ NUL := fun e => hxy (hx.trans e.symm)
          simp [strcmp, cstr_cons, hx, hy, hxy, hd]
          rw [← hx]; exact ⟨hxy, hd⟩
        · by_cases hy : y = NUL
          · simp [strcmp, cstr_cons, hx, hy, hxy, hd]
            rw [← hy]; exact hd
          · simp [strcmp, cstr_cons, hx, hy, hxy, hd]

/-! ## Lemmas on the table scan of `sm_Geoip_Code3` -/

theorem strncmp_two_iff (env : Env) (c : List Char) (i : Nat) :
    strncmp c (env.GeoIPCountryCode.getD i []) 2 = 0 ↔ Agrees env c i := by
  rw [strncmp_eq_zero_iff, Agrees]
  exact eq_comm

theorem code3Loop_none (env : Env) (c : List Char) (i n : Nat)
    (h : ∀ k, i ≤ k → k < i + n → ¬ Agrees env c k) : code3Loop env c i n = c := by
  induction n generalizing i with
  | zero => rfl
  | succ n ih =>
    have h0 : ¬ strncmp c (env.GeoIPCountryCode.getD i []) 2 = 0 := fun e =>
      h i (le_refl _) (by omega) ((strncmp_two_iff env c i).1 e)
    simp only [code3Loop, h0, if_false]
    exact ih (i + 1) (fun k hk hk2 => h k (by omega) (by omega))

theorem code3Loop_found (env : Env) (c : List Char) (i n j : Nat) (hij : i ≤ j)
    (hjn : j < i + n) (hj : Agrees env c j)
    (hmin : ∀ k, i ≤ k → k < j → ¬ Agrees env c k) :
    code3Loop env c i n = env.GeoIPCountryCode3.getD j [] := by
  induction n generalizing i with
  | zero => omega
  | succ n ih =>
    by_cases hi : i = j
    · subst hi
      rw [code3Loop, if_pos ((strncmp_two_iff env c i).2 hj)]
    · have h0 : ¬ strncmp c (env.GeoIPCountryCode.getD i []) 2 = 0 := fun e =>
        hmin i (le_refl _) (by omega) ((strncmp_two_iff env c i).1 e)
      simp only [code3Loop, h0, if_false]
      exact ih (i + 1) (by omega) (by omega) (fun k hk hk2 => hmin k (by omega) hk2)

/-- With no empty entry in `GeoIPCountryCode`, the scan leaves an empty code
as it is. -/
theorem code3Loop_empty (env : Env) (c : List Char) (hc : cstr c = [])
    (h : ∀ x ∈ env.GeoIPCountryCode, cstr x ≠ []) (i n : Nat)
    (hn : i + n ≤ env.GeoIPCountryCode.length) : code3Loop env c i n = c := by
  apply code3Loop_none
  intro k _ hk2 hag
  have hk : k < env.GeoIPCountryCode.length := by omega
  have hx := h _ (List.getElem_mem hk)
  unfold Agrees at hag
  rw [hc, List.getD_eq_getElem _ _ hk] at hag
  cases hx' : cstr env.GeoIPCountryCode[k] with
  | nil => exact hx hx'
  | cons a t => rw [hx'] at hag; simp at hag

/-! ## Lemmas on the natives -/

theorem take_eq_nil_iff_of_pos {l : List Char} {k : Nat} (hk : 0 < k) :
    l.take k = [] ↔ l = [] := by
  cases l with
  | nil => simp
  | cons a t =>
    cases k with
    | zero => omega
    | succ k => simp

theorem Shape.run_ret (s : Shape) (env : Env) (pCtx : Context) (n : Nat) :
    (s.run env pCtx n).ret = if cstr (s.ccode env pCtx) = [] then 0 else 1 := by
  by_cases hc : s.code3 <;>
    by_cases he : cstr (s.ccode env pCtx) = [] <;>
    simp_all [Shape.run, Shape.ccode, strlen]

theorem Shape.run_name (s : Shape) (env : Env) (pCtx : Context) (n : Nat) :
    (s.run env pCtx n).ctx.name = StringToLocal pCtx.name (s.bytes n) (s.ccode env pCtx) := by
  by_cases hc : s.code3 <;> simp [Shape.run, Shape.ccode, hc]

theorem Shape.run_query (s : Shape) (env : Env) (pCtx : Context) (n : Nat) :
    (s.run env pCtx n).query =
      (cstr (StripPort pCtx.ip),
        s.path (cstr (if s.useLang then
          (if strlen pCtx.lang = 0 then strcpy pCtx.lang "en".toList else pCtx.lang)
          else pCtx.lang))) := rfl

theorem Shape.run_lang (s : Shape) (env : Env) (pCtx : Context) (n : Nat) :
    (s.run env pCtx n).ctx.lang =
      if s.useLang then
        (if strlen pCtx.lang = 0 then strcpy pCtx.lang "en".toList else pCtx.lang)
      else pCtx.lang := rfl

theorem Shape.run_path (s : Shape) (env : Env) (pCtx : Context) (n : Nat) :
    (s.run env pCtx n).query.2 = s.path (cstr (s.langAfter pCtx.lang)) := rfl

theorem cstr_langAfter_of_useLang {s : Shape} (h : s.useLang = true) (lang : List Char) :
    cstr (s.langAfter lang) = effectiveLang lang := by
  unfold Shape.langAfter effectiveLang
  by_cases he : cstr lang = []
  · simp [h, strlen_eq_zero, he, cstr_strcpy]
    decide
  · simp [h, strlen_eq_zero, he]

/-- Two calls whose stripped address, key path and result buffer agree give
the same flag, the same buffer and the same query. -/
theorem Shape.run_congr (s : Shape) (env : Env) (c1 c2 : Context) (n : Nat)
    (hip : cstr (StripPort c1.ip) = cstr (StripPort c2.ip)) (hname : c1.name = c2.name)
    (hpath : s.path (cstr (s.langAfter c1.lang)) = s.path (cstr (s.langAfter c2.lang))) :
    (s.run env c1 n).ret = (s.run env c2 n).ret ∧
    (s.run env c1 n).ctx.name = (s.run env c2 n).ctx.name ∧
    (s.run env c1 n).query = (s.run env c2 n).query := by
  have hq : (s.run env c1 n).query = (s.run env c2 n).query := by
    rw [Shape.run_query, Shape.run_query]
    exact Prod.ext hip hpath
  have hcc : s.ccode env c1 = s.ccode env c2 := by
    have h0 : (s.run env c1 0).query = (s.run env c2 0).query := by
      rw [Shape.run_query, Shape.run_query]
      exact Prod.ext hip hpath
    unfold Shape.ccode
    rw [h0]
  refine ⟨?_, ?_, hq⟩
  · rw [Shape.run_ret, Shape.run_ret, hcc]
  · rw [Shape.run_name, Shape.run_name, hcc, hname]

/-- The flag and the written string, for a byte count of at least 2. -/
theorem Shape.flag_iff (s : Shape) (env : Env) (pCtx : Context) (n : Nat)
    (hb : 2 ≤ s.bytes n) :
    ((s.run env pCtx n).ret = 1 ↔ cstr (s.run env pCtx n).ctx.name ≠ []) ∧
    ((s.run env pCtx n).ret = 0 ↔ cstr (s.run env pCtx n).ctx.name = []) := by
  have hk : 0 < s.bytes n - 1 := by omega
  rw [Shape.run_ret, Shape.run_name, cstr_StringToLocal _ _ (by omega)]
  by_cases he : cstr (s.ccode env pCtx) = []
  · simp [he]
  · have h2 : ¬ List.take (s.bytes n - 1) (cstr (s.ccode env pCtx)) = [] := fun e =>
      he ((take_eq_nil_iff_of_pos hk).1 e)
    simp only [he, h2, if_false, ne_eq, not_false_eq_true, iff_true, iff_false]
    decide

theorem mem_natives_run {e : String × Native} (h : e ∈ geoip_natives) (env : Env)
    (c1 c2 : Context) (n : Nat)
    (hip : cstr (StripPort c1.ip) = cstr (StripPort c2.ip)) (hname : c1.name = c2.name)
    (hlang : c1.lang = c2.lang) :
    (e.2 env c1 n).ret = (e.2 env c2 n).ret ∧
    (e.2 env c1 n).ctx.name = (e.2 env c2 n).ctx.name ∧
    (e.2 env c1 n).query = (e.2 env c2 n).query := by
  obtain ⟨s, _, he⟩ := mem_natives_shape h
  rw [he]
  exact Shape.run_congr s env c1 c2 n hip hname (by rw [hlang])

theorem length_le_of_colon_free {a r t : List Char} (ht : t <+: a ++ ':' :: r)
    (hc : ':' ∉ t) : t.length ≤ a.length := by
  by_contra hlt
  have hlt : a.length < t.length := by omega
  obtain ⟨u, hu⟩ := ht
  have h1 : (t ++ u)[a.length]? = some ':' := by
    rw [hu, List.getElem?_append_right (le_refl _)]; simp
  rw [List.getElem?_append_left hlt] at h1
  exact hc (List.getElem?_mem h1)

theorem Shape.outcomeFrom (s : Shape) (env : Env) (pCtx : Context) (n : Nat) :
    OutcomeFrom env pCtx (s.bytes n) s.code3 (cstr (StripPort pCtx.ip))
      (s.path (cstr (s.langAfter pCtx.lang))) (s.run env pCtx n) := by
  have hcc : s.ccode env pCtx = chosen env s.code3
      (env.lookupString (cstr (StripPort pCtx.ip)) (s.path (cstr (s.langAfter pCtx.lang)))) := rfl
  exact ⟨by rw [Shape.run_ret, hcc], by rw [Shape.run_name, hcc]⟩

theorem Shape.looksUp (s : Shape) (h : s.useLang = true ∨ ∀ l l', s.path l = s.path l') :
    LooksUp s.run s.path s.bytes s.code3 := by
  intro env pCtx n
  have h0 := Shape.outcomeFrom s env pCtx n
  rcases h with hu | hp
  · rwa [cstr_langAfter_of_useLang hu] at h0
  · rwa [hp (cstr (s.langAfter pCtx.lang)) (effectiveLang pCtx.lang)] at h0

theorem LooksUp.passesStrippedAddress {f : Native} {path : List Char → List (List Char)}
    {bytes : Nat → Nat} {scan : Bool} (h : LooksUp f path bytes scan) :
    PassesStrippedAddress f path bytes scan := by
  constructor
  · intro env pCtx n a p ip1 hc h1
    have h0 := h env { pCtx with ip := ip1 } n
    have hs : cstr (StripPort ip1) = a := cstr_StripPort_of_eq h1 hc
    simp only [hs] at h0
    exact h0
  · intro env pCtx n hc
    have h0 := h env pCtx n
    rwa [cstr_StripPort_of_not_mem hc] at h0

theorem LooksUp.usesLanguage {f : Native} {keys : List (List Char)}
    (h : LooksUp f (fun l => keys ++ [l]) (fun n => n) false) : UsesLanguage f keys := by
  constructor
  · intro env pCtx n h0
    have := h env pCtx n
    simpa only [effectiveLang, h0, if_true] using this
  · intro env pCtx n hne
    have := h env pCtx n
    simpa only [effectiveLang, hne, if_false] using this

theorem looksUp_Code2 :
    LooksUp sm_Geoip_Code2 (fun _ => ["country".toList, "iso_code".toList]) (fun _ => 3) false :=
  Shape.looksUp ⟨false, fun _ => ["country".toList, "iso_code".toList], fun _ => 3, false⟩
    (Or.inr fun _ _ => rfl)

theorem looksUp_Code3 :
    LooksUp sm_Geoip_Code3 (fun _ => ["country".toList, "iso_code".toList]) (fun _ => 4) true :=
  Shape.looksUp ⟨false, fun _ => ["country".toList, "iso_code".toList], fun _ => 4, true⟩
    (Or.inr fun _ _ => rfl)

theorem looksUp_ContinentCode :
    LooksUp sm_Geoip_ContinentCode (fun _ => ["continent".toList, "code".toList])
      (fun _ => 3) false :=
  Shape.looksUp ⟨false, fun _ => ["continent".toList, "code".toList], fun _ => 3, false⟩
    (Or.inr fun _ _ => rfl)

theorem looksUp_RegionCode :
    LooksUp sm_Geoip_RegionCode
      (fun _ => ["subdivisions".toList, "0".toList, "iso_code".toList]) (fun _ => 4) false :=
  Shape.looksUp
    ⟨false, fun _ => ["subdivisions".toList, "0".toList, "iso_code".toList], fun _ => 4, false⟩
    (Or.inr fun _ _ => rfl)

theorem looksUp_Timezone :
    LooksUp sm_Geoip_Timezone (fun _ => ["location".toList, "time_zone".toList])
      (fun n => n) false :=
  Shape.looksUp ⟨false, fun _ => ["location".toList, "time_zone".toList], fun n => n, false⟩
    (Or.inr fun _ _ => rfl)

theorem looksUp_Country :
    LooksUp sm_Geoip_Country (fun l => ["country".toList, "names".toList] ++ [l])
      (fun n => n) false :=
  Shape.looksUp ⟨true, fun l => ["country".toList, "names".toList, l], fun n => n, false⟩
    (Or.inl rfl)

theorem looksUp_Continent :
    LooksUp sm_Geoip_Continent (fun l => ["continent".toList, "names".toList] ++ [l])
      (fun n => n) false :=
  Shape.looksUp ⟨true, fun l => ["continent".toList, "names".toList, l], fun n => n, false⟩
    (Or.inl rfl)

theorem looksUp_Region :
    LooksUp sm_Geoip_Region
      (fun l => ["subdivisions".toList, "0".toList, "names".toList] ++ [l]) (fun n => n) false :=
  Shape.looksUp
    ⟨true, fun l => ["subdivisions".toList, "0".toList, "names".toList, l], fun n => n, false⟩
    (Or.inl rfl)

theorem looksUp_City :
    LooksUp sm_Geoip_City (fun l => ["city".toList, "names".toList] ++ [l]) (fun n => n) false :=
  Shape.looksUp ⟨true, fun l => ["city".toList, "names".toList, l], fun n => n, false⟩
    (Or.inl rfl)

/-! ## The claims -/

theorem effectiveLang_of_empty {lang : List Char} (h : cstr lang = []) :
    effectiveLang lang = "en".toList := by
  simp [effectiveLang, h]

theorem effectiveLang_of_nonempty {lang : List Char} (h : cstr lang ≠ []) :
    effectiveLang lang = cstr lang := by
  simp [effectiveLang, h]

theorem Shape.defaultsToEn (s : Shape) (hu : s.useLang = true)
    (hp : ∀ l, (s.path l).getLast? = some l) : DefaultsToEn s.run := by
  constructor
  · intro env pCtx n l0 len h0 hen
    have hne : cstr len ≠ [] := by rw [hen]; decide
    refine Shape.run_congr s env _ _ n rfl rfl ?_
    show s.path (cstr (s.langAfter l0)) = s.path (cstr (s.langAfter len))
    rw [cstr_langAfter_of_useLang hu, cstr_langAfter_of_useLang hu,
      effectiveLang_of_empty h0, effectiveLang_of_nonempty hne, hen]
  · intro env pCtx n hne
    rw [Shape.run_path, cstr_langAfter_of_useLang hu, effectiveLang_of_nonempty hne]
    exact hp _

theorem code3Loop_congr (env env' : Env) (c : List Char)
    (h1 : env.GeoIPCountryCode = env'.GeoIPCountryCode)
    (h2 : env.GeoIPCountryCode3 = env'.GeoIPCountryCode3) (i n : Nat) :
    code3Loop env c i n = code3Loop env' c i n := by
  induction n generalizing i with
  | zero => rfl
  | succ n ih => simp only [code3Loop, h1, h2, ih]

/-- A native's outcome depends on the database only through the value of
`lookupString` at the native's query. -/
theorem Shape.run_lookup_only (s : Shape) (env env' : Env) (pCtx : Context) (n : Nat)
    (h1 : env.GeoIPCountryCode = env'.GeoIPCountryCode)
    (h2 : env.GeoIPCountryCode3 = env'.GeoIPCountryCode3)
    (h : env.lookupString (s.run env pCtx n).query.1 (s.run env pCtx n).query.2
      = env'.lookupString (s.run env pCtx n).query.1 (s.run env pCtx n).query.2) :
    s.run env pCtx n = s.run env' pCtx n := by
  simp only [Shape.run] at h ⊢
  rw [h, code3Loop_congr env env' _ h1 h2, h1]

theorem Shape.usesPath_of_useLang (s : Shape) (hu : s.useLang = true) :
    UsesPath s.run s.path := by
  intro env pCtx n
  rw [Shape.run_path, cstr_langAfter_of_useLang hu]

theorem mem_codeNatives_shape {f : Native} (h : f ∈ codeNatives) :
    ∃ s : Shape, f = s.run ∧ s.useLang = false ∧ ∀ l l', s.path l = s.path l' := by
  simp only [codeNatives, List.mem_cons, List.mem_singleton, List.not_mem_nil, or_false] at h
  rcases h with h | h | h | h | h <;> subst h
  · exact ⟨⟨false, fun _ => ["country".toList, "iso_code".toList], fun _ => 3, false⟩, rfl, rfl, fun _ _ => rfl⟩
  · exact ⟨⟨false, fun _ => ["country".toList, "iso_code".toList], fun _ => 4, true⟩, rfl, rfl, fun _ _ => rfl⟩
  · exact ⟨⟨false, fun _ => ["continent".toList, "code".toList], fun _ => 3, false⟩, rfl, rfl, fun _ _ => rfl⟩
  · exact ⟨⟨false, fun _ => ["subdivisions".toList, "0".toList, "iso_code".toList],
      fun _ => 4, false⟩, rfl, rfl, fun _ _ => rfl⟩
  · exact ⟨⟨false, fun _ => ["location".toList, "time_zone".toList], fun n => n, false⟩,
      rfl, rfl, fun _ _ => rfl⟩

theorem mem_nameNatives_shape {f : Native} (h : f ∈ nameNatives) :
    ∃ s : Shape, f = s.run ∧ s.useLang = true ∧ s.code3 = false ∧
      (∀ n, s.bytes n = n) ∧ ∀ l, (s.path l).getLast? = some l := by
  simp only [nameNatives, List.mem_cons, List.mem_singleton, List.not_mem_nil, or_false] at h
  rcases h with h | h | h | h <;> subst h
  · exact ⟨⟨true, fun l => ["country".toList, "names".toList, l], fun n => n, false⟩,
      rfl, rfl, rfl, fun _ => rfl, fun _ => rfl⟩
  · exact ⟨⟨true, fun l => ["continent".toList, "names".toList, l], fun n => n, false⟩,
      rfl, rfl, rfl, fun _ => rfl, fun _ => rfl⟩
  · exact ⟨⟨true, fun l => ["subdivisions".toList, "0".toList, "names".toList, l],
      fun n => n, false⟩, rfl, rfl, rfl, fun _ => rfl, fun _ => rfl⟩
  · exact ⟨⟨true, fun l => ["city".toList, "names".toList, l], fun n => n, false⟩,
      rfl, rfl, rfl, fun _ => rfl, fun _ => rfl⟩

theorem Shape.writesEmpty (s : Shape) (env : Env) (pCtx : Context) (n : Nat)
    (hb : 1 ≤ s.bytes n) (hc : cstr (s.ccode env pCtx) = []) :
    WritesEmpty pCtx (s.run env pCtx n) := by
  refine ⟨?_, ?_, rfl⟩
  · rw [Shape.run_ret, if_pos hc]
  · rw [Shape.run_name, cstr_StringToLocal _ _ (by omega), hc]
    simp

theorem Shape.ccode_of_miss (s : Shape) (env : Env) (pCtx : Context) (n : Nat)
    (hm : Miss s.run env pCtx n) (h3 : s.code3 = false) : cstr (s.ccode env pCtx) = [] := by
  have hm0 : env.lookupString (s.run env pCtx 0).query.1 (s.run env pCtx 0).query.2 = [] := hm
  simp only [Shape.ccode, h3, hm0]
  exact cstr_chars []

/-- C1 (amended): when `lookupString` finds no value along the native's key
path (returns the empty string), the native returns 0, leaves the empty string
in the caller's buffer and raises no native error: for `GeoipCode2`,
`GeoipContinentCode` and `GeoipRegionCode` always; for `GeoipTimezone`,
`GeoipCountry`, `GeoipContinent`, `GeoipRegion` and `GeoipCity` whenever the
caller's buffer length is at least 1; for `GeoipCode3` whenever no entry of
`GeoIPCountryCode` is the empty string. -/
theorem missing_field_gives_empty_and_zero :
    (∀ f ∈ [sm_Geoip_Code2, sm_Geoip_ContinentCode, sm_Geoip_RegionCode],
        ∀ (env : Env) (pCtx : Context) (n : Nat),
        Miss f env pCtx n → WritesEmpty pCtx (f env pCtx n)) ∧
    (∀ f ∈ sm_Geoip_Timezone :: nameNatives, ∀ (env : Env) (pCtx : Context) (n : Nat),
        1 ≤ n → Miss f env pCtx n → WritesEmpty pCtx (f env pCtx n)) ∧
    (∀ (env : Env) (pCtx : Context) (n : Nat),
        (∀ c ∈ env.GeoIPCountryCode, cstr c ≠ []) →
        Miss sm_Geoip_Code3 env pCtx n → WritesEmpty pCtx (sm_Geoip_Code3 env pCtx n)) := by
  refine ⟨?_, ?_, ?_⟩
  · intro f hf env pCtx n hm
    simp only [List.mem_cons, List.mem_singleton, List.not_mem_nil, or_false] at hf
    rcases hf with h | h | h <;> subst h
    · exact Shape.writesEmpty
        ⟨false, fun _ => ["country".toList, "iso_code".toList], fun _ => 3, false⟩ env pCtx n
        (by simp) (Shape.ccode_of_miss _ env pCtx n hm rfl)
    · exact Shape.writesEmpty
        ⟨false, fun _ => ["continent".toList, "code".toList], fun _ => 3, false⟩ env pCtx n
        (by simp) (Shape.ccode_of_miss _ env pCtx n hm rfl)
    · exact Shape.writesEmpty
        ⟨false, fun _ => ["subdivisions".toList, "0".toList, "iso_code".toList],
          fun _ => 4, false⟩ env pCtx n
        (by simp) (Shape.ccode_of_miss _ env pCtx n hm rfl)
  · intro f hf env pCtx n hn hm
    rcases List.mem_cons.1 hf with h | h
    · subst h
      exact Shape.writesEmpty
        ⟨false, fun _ => ["location".toList, "time_zone".toList], fun n => n, false⟩ env pCtx n
        hn (Shape.ccode_of_miss _ env pCtx n hm rfl)
    · obtain ⟨sh, hrun, _, h3, hb, _⟩ := mem_nameNatives_shape h
      subst hrun
      exact Shape.writesEmpty sh env pCtx n (by rw [hb]; exact hn)
        (Shape.ccode_of_miss sh env pCtx n hm h3)
  · intro env pCtx n htab hm
    refine Shape.writesEmpty
      ⟨false, fun _ => ["country".toList, "iso_code".toList], fun _ => 4, true⟩ env pCtx n
      (by simp) ?_
    have hm0 : env.lookupString (cstr (StripPort pCtx.ip))
        ["country".toList, "iso_code".toList] = [] := hm
    have hcc : Shape.ccode
        ⟨false, fun _ => ["country".toList, "iso_code".toList], fun _ => 4, true⟩ env pCtx
        = code3Loop env (chars (env.lookupString (cstr (StripPort pCtx.ip))
            ["country".toList, "iso_code".toList])) 0 env.GeoIPCountryCode.length := rfl
    rw [hcc, hm0, code3Loop_empty env (chars []) (cstr_chars []) htab 0 _ (by omega)]
    exact cstr_chars []

/-- C1 (amended), at concrete inputs: `GeoipCode2`, `GeoipCountry` and
`GeoipCode3` on the unknown address `"10.0.0.1"` in the sample environment. -/
theorem missing_field_gives_empty_and_zero_witness :
    WritesEmpty { sampleCtx with ip := "10.0.0.1".toList }
      (sm_Geoip_Code2 sampleEnv { sampleCtx with ip := "10.0.0.1".toList } 0) ∧
    WritesEmpty { sampleCtx with ip := "10.0.0.1".toList }
      (sm_Geoip_Country sampleEnv { sampleCtx with ip := "10.0.0.1".toList } 1) ∧
    WritesEmpty { sampleCtx with ip := "10.0.0.1".toList }
      (sm_Geoip_Code3 sampleEnv { sampleCtx with ip := "10.0.0.1".toList } 0) :=
  ⟨missing_field_gives_empty_and_zero.1 sm_Geoip_Code2 (by simp) sampleEnv
      { sampleCtx with ip := "10.0.0.1".toList } 0 (by decide),
    missing_field_gives_empty_and_zero.2.1 sm_Geoip_Country (by simp [nameNatives]) sampleEnv
      { sampleCtx with ip := "10.0.0.1".toList } 1 (by decide) (by decide),
    missing_field_gives_empty_and_zero.2.2 sampleEnv
      { sampleCtx with ip := "10.0.0.1".toList } 0 (by decide) (by decide)⟩

/-- C1 fails as stated.  With an empty entry in `GeoIPCountryCode`, a lookup
that finds nothing makes `GeoipCode3` return 1 and write the 3-letter entry at
that index; and with a caller buffer length of 0, `GeoipTimezone` writes
nothing, so the caller's buffer keeps its old, non-empty string. -/
theorem missing_field_counterexample :
    (gapEnv.lookupString (sm_Geoip_Code3 gapEnv sampleCtx 0).query.1
        (sm_Geoip_Code3 gapEnv sampleCtx 0).query.2 = [] ∧
      (sm_Geoip_Code3 gapEnv sampleCtx 0).ret = 1 ∧
      cstr (sm_Geoip_Code3 gapEnv sampleCtx 0).ctx.name = "N/A".toList) ∧
    (gapEnv.lookupString (sm_Geoip_Timezone gapEnv sampleCtx 0).query.1
        (sm_Geoip_Timezone gapEnv sampleCtx 0).query.2 = [] ∧
      cstr (sm_Geoip_Timezone gapEnv sampleCtx 0).ctx.name = "old".toList) := by
  decide

theorem Shape.name_length_le (s : Shape) (env : Env) (pCtx : Context) (n : Nat)
    (hb : 1 ≤ s.bytes n) : (cstr (s.run env pCtx n).ctx.name).length ≤ s.bytes n - 1 := by
  rw [Shape.run_name, cstr_StringToLocal _ _ (by omega)]
  exact List.length_take_le _ _

/-- C7 (amended): the native returns 1 exactly when the string it left in the
caller's buffer is non-empty, and 0 exactly when the buffer holds the empty
string: for `GeoipCode2`, `GeoipContinentCode` (length fixed at 3: at most 2
characters are written) and `GeoipCode3`, `GeoipRegionCode` (length fixed at 4:
at most 3 characters) on every call; for `GeoipTimezone`, `GeoipCountry`,
`GeoipContinent`, `GeoipRegion` and `GeoipCity` (length `maxlen` given by the
caller: at most `maxlen - 1` characters) on every call with `maxlen >= 2`. -/
theorem flag_matches_written_string :
    (∀ f ∈ [sm_Geoip_Code2, sm_Geoip_ContinentCode],
        ∀ (env : Env) (pCtx : Context) (n : Nat),
        FlagMatchesBuffer (f env pCtx n) ∧ (cstr (f env pCtx n).ctx.name).length ≤ 2) ∧
    (∀ f ∈ [sm_Geoip_Code3, sm_Geoip_RegionCode],
        ∀ (env : Env) (pCtx : Context) (n : Nat),
        FlagMatchesBuffer (f env pCtx n) ∧ (cstr (f env pCtx n).ctx.name).length ≤ 3) ∧
    (∀ f ∈ sm_Geoip_Timezone :: nameNatives, ∀ (env : Env) (pCtx : Context) (maxlen : Nat),
        (2 ≤ maxlen → FlagMatchesBuffer (f env pCtx maxlen)) ∧
        (1 ≤ maxlen → (cstr (f env pCtx maxlen).ctx.name).length ≤ maxlen - 1)) := by
  refine ⟨?_, ?_, ?_⟩
  · intro f hf env pCtx n
    simp only [List.mem_cons, List.mem_singleton, List.not_mem_nil, or_false] at hf
    rcases hf with h | h <;> subst h
    · exact ⟨Shape.flag_iff
          ⟨false, fun _ => ["country".toList, "iso_code".toList], fun _ => 3, false⟩
          env pCtx n (by simp),
        Shape.name_length_le
          ⟨false, fun _ => ["country".toList, "iso_code".toList], fun _ => 3, false⟩
          env pCtx n (by simp)⟩
    · exact ⟨Shape.flag_iff
          ⟨false, fun _ => ["continent".toList, "code".toList], fun _ => 3, false⟩
          env pCtx n (by simp),
        Shape.name_length_le
          ⟨false, fun _ => ["continent".toList, "code".toList], fun _ => 3, false⟩
          env pCtx n (by simp)⟩
  · intro f hf env pCtx n
    simp only [List.mem_cons, List.mem_singleton, List.not_mem_nil, or_false] at hf
    rcases hf with h | h <;> subst h
    · exact ⟨Shape.flag_iff
          ⟨false, fun _ => ["country".toList, "iso_code".toList], fun _ => 4, true⟩
          env pCtx n (by simp),
        Shape.name_length_le
          ⟨false, fun _ => ["country".toList, "iso_code".toList], fun _ => 4, true⟩
          env pCtx n (by simp)⟩
    · exact ⟨Shape.flag_iff
          ⟨false, fun _ => ["subdivisions".toList, "0".toList, "iso_code".toList],
            fun _ => 4, false⟩ env pCtx n (by simp),
        Shape.name_length_le
          ⟨false, fun _ => ["subdivisions".toList, "0".toList, "iso_code".toList],
            fun _ => 4, false⟩ env pCtx n (by simp)⟩
  · intro f hf env pCtx maxlen
    rcases List.mem_cons.1 hf with h | h
    · subst h
      exact ⟨fun h2 => Shape.flag_iff
          ⟨false, fun _ => ["location".toList, "time_zone".toList], fun n => n, false⟩
          env pCtx maxlen h2,
        fun h1 => Shape.name_length_le
          ⟨false, fun _ => ["location".toList, "time_zone".toList], fun n => n, false⟩
          env pCtx maxlen h1⟩
    · obtain ⟨sh, hrun, _, _, hb, _⟩ := mem_nameNatives_shape h
      subst hrun
      refine ⟨fun h2 => Shape.flag_iff sh env pCtx maxlen (by rw [hb]; exact h2), fun h1 => ?_⟩
      have := Shape.name_length_le sh env pCtx maxlen (by rw [hb]; exact h1)
      rwa [hb] at this

/-- C7 (amended), at concrete inputs: `GeoipTimezone` and `GeoipCountry` on the
sample caller with a 16-byte buffer. -/
theorem flag_matches_written_string_witness :
    FlagMatchesBuffer (sm_Geoip_Timezone sampleEnv sampleCtx 16) ∧
    (cstr (sm_Geoip_Country sampleEnv sampleCtx 16).ctx.name).length ≤ 16 - 1 :=
  ⟨(flag_matches_written_string.2.2 sm_Geoip_Timezone (List.mem_cons_self _ _)
      sampleEnv sampleCtx 16).1 (by decide),
    (flag_matches_written_string.2.2 sm_Geoip_Country (by simp [nameNatives])
      sampleEnv sampleCtx 16).2 (by decide)⟩

/-- C7 fails as stated: with a caller buffer length of 1, `GeoipTimezone` on an
address the database resolves returns 1 while the buffer it wrote holds the
empty string. -/
theorem flag_matches_counterexample :
    (1 ≤ 1) ∧
    (sm_Geoip_Timezone sampleEnv sampleCtx 1).ret = 1 ∧
    cstr (sm_Geoip_Timezone sampleEnv sampleCtx 1).ctx.name = [] ∧
    ¬ FlagMatchesBuffer (sm_Geoip_Timezone sampleEnv sampleCtx 1) := by
  decide

/-- C8 (amended): `GeoipCode3`, for every resolved country code `c` and every
pair of tables of equal length: if some entry of `GeoIPCountryCode` agrees with
`c` on its first two characters (`strncmp` over 2 bytes answers 0 exactly
then), the string written is `GeoIPCountryCode3[i]`
cut to at most 3 characters, for the smallest such index `i` (so the entry
itself when it has at most 3 characters); if no entry agrees, the string
written is `c` cut to at most 3 characters; the flag is 1 exactly when the
chosen string is non-empty, and 0 otherwise. -/
theorem code3_maps_through_table (env : Env) (pCtx : Context) (n : Nat)
    (_hlen : env.GeoIPCountryCode.length = env.GeoIPCountryCode3.length) :
    (∀ i, strncmp (chars (env.lookupString (cstr (StripPort pCtx.ip))
          ["country".toList, "iso_code".toList])) (env.GeoIPCountryCode.getD i []) 2 = 0 ↔
        Agrees env (env.lookupString (cstr (StripPort pCtx.ip))
          ["country".toList, "iso_code".toList]) i) ∧
    (∀ i, i < env.GeoIPCountryCode.length →
        Agrees env (env.lookupString (cstr (StripPort pCtx.ip))
          ["country".toList, "iso_code".toList]) i →
        (∀ k, k < i → ¬ Agrees env (env.lookupString (cstr (StripPort pCtx.ip))
          ["country".toList, "iso_code".toList]) k) →
        cstr (sm_Geoip_Code3 env pCtx n).ctx.name
          = (cstr (env.GeoIPCountryCode3.getD i [])).take 3 ∧
        ((cstr (env.GeoIPCountryCode3.getD i [])).length ≤ 3 →
          cstr (sm_Geoip_Code3 env pCtx n).ctx.name = cstr (env.GeoIPCountryCode3.getD i [])) ∧
        ((sm_Geoip_Code3 env pCtx n).ret = 1 ↔ cstr (env.GeoIPCountryCode3.getD i []) ≠ [])) ∧
    ((∀ i, i < env.GeoIPCountryCode.length →
        ¬ Agrees env (env.lookupString (cstr (StripPort pCtx.ip))
          ["country".toList, "iso_code".toList]) i) →
        cstr (sm_Geoip_Code3 env pCtx n).ctx.name
          = (cstr (env.lookupString (cstr (StripPort pCtx.ip))
              ["country".toList, "iso_code".toList])).take 3 ∧
        ((sm_Geoip_Code3 env pCtx n).ret = 1 ↔
          cstr (env.lookupString (cstr (StripPort pCtx.ip))
            ["country".toList, "iso_code".toList]) ≠ [])) ∧
    ((sm_Geoip_Code3 env pCtx n).ret = 0 ∨ (sm_Geoip_Code3 env pCtx n).ret = 1) := by
  have hname : ∀ cc, code3Loop env (chars (env.lookupString (cstr (StripPort pCtx.ip))
        ["country".toList, "iso_code".toList])) 0 env.GeoIPCountryCode.length = cc →
      cstr (sm_Geoip_Code3 env pCtx n).ctx.name = (cstr cc).take 3 ∧
      ((sm_Geoip_Code3 env pCtx n).ret = 1 ↔ cstr cc ≠ []) := by
    intro cc hcc
    constructor
    · show cstr (StringToLocal pCtx.name 4 _) = _
      rw [cstr_StringToLocal _ _ (by decide), hcc]
    · show (if strlen _ ≠ 0 then (1 : Int) else 0) = 1 ↔ _
      rw [hcc]
      by_cases he : cstr cc = [] <;> simp [strlen_eq_zero, he]
  have hag : ∀ i, Agrees env (chars (env.lookupString (cstr (StripPort pCtx.ip))
        ["country".toList, "iso_code".toList])) i ↔
      Agrees env (env.lookupString (cstr (StripPort pCtx.ip))
        ["country".toList, "iso_code".toList]) i := by
    intro i
    unfold Agrees
    rw [cstr_chars]
  refine ⟨fun i => (strncmp_two_iff env _ i).trans (hag i), ?_, ?_, ?_⟩
  · intro i hi hagree hmin
    have h := hname _ (code3Loop_found env _ 0 _ i (Nat.zero_le _) (by omega)
      ((hag i).2 hagree) (fun k _ hk hc => hmin k hk ((hag k).1 hc)))
    refine ⟨h.1, fun hle => ?_, h.2⟩
    rw [h.1, List.take_of_length_le hle]
  · intro hno
    have h := hname _ (code3Loop_none env _ 0 _
      (fun k _ hk hc => hno k (by omega) ((hag k).1 hc)))
    rw [cstr_chars] at h
    exact h
  · show (if strlen _ ≠ 0 then (1 : Int) else 0) = 0 ∨ (if strlen _ ≠ 0 then (1 : Int) else 0) = 1
    split <;> simp

/-- C8 (amended), at a concrete input: `GeoipCode3` on the sample caller, whose
address resolves to `"FR"`, entry 2 of the sample table. -/
theorem code3_maps_through_table_witness :
    cstr (sm_Geoip_Code3 sampleEnv sampleCtx 0).ctx.name = "FRA".toList ∧
    (sm_Geoip_Code3 sampleEnv sampleCtx 0).ret = 1 :=
  ⟨((code3_maps_through_table sampleEnv sampleCtx 0 (by decide)).2.1 2 (by decide) (by decide)
      (by decide)).1,
    ((code3_maps_through_table sampleEnv sampleCtx 0 (by decide)).2.1 2 (by decide) (by decide)
      (by decide)).2.2.2 (by decide)⟩

/-- C8 fails as stated: with the 4-character entry `"FRAN"` in
`GeoIPCountryCode3` at the index of `"FR"`, `GeoipCode3` writes `"FRA"`, not
the table entry. -/
theorem code3_counterexample :
    longEntryEnv.GeoIPCountryCode.length = longEntryEnv.GeoIPCountryCode3.length ∧
    Agrees longEntryEnv (longEntryEnv.lookupString (cstr (StripPort sampleCtx.ip))
      ["country".toList, "iso_code".toList]) 1 ∧
    ¬ Agrees longEntryEnv (longEntryEnv.lookupString (cstr (StripPort sampleCtx.ip))
      ["country".toList, "iso_code".toList]) 0 ∧
    cstr (sm_Geoip_Code3 longEntryEnv sampleCtx 0).ctx.name = "FRA".toList ∧
    cstr (sm_Geoip_Code3 longEntryEnv sampleCtx 0).ctx.name
      ≠ cstr (longEntryEnv.GeoIPCountryCode3.getD 1 []) := by
  decide

theorem cstr_drop (s : List Char) (k : Nat) (h : k ≤ (cstr s).length) :
    cstr (s.drop k) = (cstr s).drop k := by
  induction s generalizing k with
  | nil => simp [cstr_nil]
  | cons a s ih =>
    cases k with
    | zero => simp
    | succ k =>
      by_cases ha : a = NUL
      · simp [cstr_cons, ha] at h
      · simp only [cstr_cons, ha, if_false, List.length_cons, Nat.add_le_add_iff_right] at h
        simp [cstr_cons, ha, ih k h]

/-- The file-name test of `SDK_OnLoad` holds exactly for the names that end in
`".mmdb"`. -/
theorem isDatabaseName_iff (name : List Char) :
    isDatabaseName name = true ↔ ".mmdb".toList <:+ cstr name := by
  have h5 : cstr ".mmdb".toList = ".mmdb".toList := by decide
  have hl : ".mmdb".toList.length = 5 := by decide
  unfold isDatabaseName strlen
  simp only [Bool.and_eq_true, decide_eq_true_eq, strcmp_eq_zero_iff, h5]
  rw [cstr_drop name _ (by omega), List.suffix_iff_eq_drop, hl]
  constructor
  · rintro ⟨_, h⟩; exact h.symm
  · intro h
    refine ⟨?_, h.symm⟩
    have := congrArg List.length h
    rw [hl, List.length_drop] at this
    omega

theorem isDatabaseName_eq (name : List Char) :
    isDatabaseName name = decide (".mmdb".toList <:+ cstr name) := by
  by_cases h : ".mmdb".toList <:+ cstr name
  · rw [decide_eq_true h]; exact (isDatabaseName_iff name).2 h
  · rw [decide_eq_false h]
    cases hd : isDatabaseName name with
    | false => rfl
    | true => exact absurd ((isDatabaseName_iff name).1 hd) h

/-- The directory loop stops at the first database file and opens only it. -/
theorem scanDirectory_eq (env : LoadEnv) (dir : List DirEntry) :
    scanDirectory env dir =
      match firstDatabase dir with
      | none => Scan.exhausted
      | some e =>
        if env.MMDB_open (env.PathFormat env.m_GeoipDir e.name) ≠ MMDB_SUCCESS then
          Scan.openFailed (env.PathFormat env.m_GeoipDir e.name)
        else Scan.loaded (env.PathFormat env.m_GeoipDir e.name) := by
  induction dir with
  | nil => rfl
  | cons e rest ih =>
    unfold scanDirectory firstDatabase
    rw [List.find?_cons, isDatabaseName_eq]
    by_cases hf : e.isFile = true
    · by_cases hn : ".mmdb".toList <:+ cstr e.name
      · simp only [hf, decide_eq_true hn, Bool.and_self, if_true]
      · simp only [hf, decide_eq_false hn, if_true, Bool.and_false]
        exact ih
    · simp only [hf, Bool.false_and]
      exact ih

theorem bind_firstDatabase_eq_none (env : LoadEnv) :
    env.OpenDirectory.bind firstDatabase = none ↔
      (env.OpenDirectory = none ∨
        ∃ dir, env.OpenDirectory = some dir ∧
          ∀ e ∈ dir, e.isFile = true → ¬ ".mmdb".toList <:+ cstr e.name) := by
  cases hd : env.OpenDirectory with
  | none => simp
  | some dir =>
    simp only [Option.some_bind, firstDatabase, List.find?_eq_none, Bool.and_eq_true,
      decide_eq_true_eq, not_and, false_or, Option.some.injEq, exists_eq_left', reduceCtorEq]

theorem cstr_SafeStrcpy (dest src : List Char) {maxlength : Nat} (h : maxlength ≠ 0) :
    cstr (SafeStrcpy dest maxlength src) = (cstr src).take (maxlength - 1) :=
  cstr_StringToLocal dest src h

/-- Outcome of `SDK_OnLoad` when no database file is found. -/
theorem SDK_OnLoad_notFound (env : LoadEnv) (ext : Extension) (error : List Char)
    (maxlength : Nat) (h : ext.filename = none)
    (hf : env.OpenDirectory.bind firstDatabase = none) :
    SDK_OnLoad env ext error maxlength =
      { ret := some false
        error := SafeStrcpy error maxlength "Could not find GeoIP2 database.".toList
        opened := [], ext := ext, log := [] } := by
  unfold SDK_OnLoad
  simp only [h, Option.isSome_none, Bool.false_eq_true, if_false]
  cases hd : env.OpenDirectory with
  | none => rfl
  | some dir =>
    rw [hd, Option.some_bind] at hf
    simp only [scanDirectory_eq, hf]

/-- Outcome of `SDK_OnLoad` when the first database file fails to open. -/
theorem SDK_OnLoad_openFailed (env : LoadEnv) (ext : Extension) (error : List Char)
    (maxlength : Nat) (h : ext.filename = none) (e : DirEntry)
    (hf : env.OpenDirectory.bind firstDatabase = some e)
    (ho : env.MMDB_open (env.PathFormat env.m_GeoipDir e.name) ≠ MMDB_SUCCESS) :
    SDK_OnLoad env ext error maxlength =
      { ret := some false
        error := SafeStrcpy error maxlength "Failed to open GeoIP2 database.".toList
        opened := [env.PathFormat env.m_GeoipDir e.name], ext := ext, log := [] } := by
  unfold SDK_OnLoad
  simp only [h, Option.isSome_none, Bool.false_eq_true, if_false]
  cases hd : env.OpenDirectory with
  | none => rw [hd] at hf; simp at hf
  | some dir =>
    rw [hd, Option.some_bind] at hf
    simp only [scanDirectory_eq, hf, ho, ne_eq, not_false_eq_true, if_true]

/-- Outcome of `SDK_OnLoad` when the first database file opens. -/
theorem SDK_OnLoad_loaded (env : LoadEnv) (ext : Extension) (error : List Char)
    (maxlength : Nat) (h : ext.filename = none) (e : DirEntry)
    (hf : env.OpenDirectory.bind firstDatabase = some e)
    (ho : env.MMDB_open (env.PathFormat env.m_GeoipDir e.name) = MMDB_SUCCESS) :
    (SDK_OnLoad env ext error maxlength).opened = [env.PathFormat env.m_GeoipDir e.name] ∧
    (SDK_OnLoad env ext error maxlength).error = error ∧
    (SDK_OnLoad env ext error maxlength).ext
      = { filename := some (env.PathFormat env.m_GeoipDir e.name), natives := true } ∧
    (SDK_OnLoad env ext error maxlength).ret
      = if LogCompletes env (env.PathFormat env.m_GeoipDir e.name) then some true else none := by
  unfold SDK_OnLoad
  simp only [h, Option.isSome_none, Bool.false_eq_true, if_false]
  cases hd : env.OpenDirectory with
  | none => rw [hd] at hf; simp at hf
  | some dir =>
    rw [hd, Option.some_bind] at hf
    simp only [scanDirectory_eq, hf, ho, ne_eq, not_true_eq_false, if_false]
    cases hs : env.strftime (env.metadata (env.PathFormat env.m_GeoipDir e.name)).build_epoch with
    | none =>
      refine ⟨rfl, rfl, rfl, ?_⟩
      rw [if_neg]
      intro hc
      have h1 := hc.1
      rw [hs] at h1
      simp at h1
    | some date =>
      by_cases hb : fitsBuf (languagesLoop
          (env.metadata (env.PathFormat env.m_GeoipDir e.name)).languages 0 env.buf) = true
      · dsimp only
        rw [if_pos hb]
        refine ⟨rfl, rfl, rfl, ?_⟩
        rw [if_pos]
        exact ⟨by rw [hs]; rfl, hb⟩
      · dsimp only
        rw [if_neg hb]
        refine ⟨rfl, rfl, rfl, ?_⟩
        rw [if_neg]
        intro hc
        exact hb hc.2

theorem cstr_strcat (d src : List Char) : cstr (strcat d src) = cstr d ++ cstr src := by
  unfold strcat
  refine cstr_append_NUL _ ?_
  intro hm
  rcases List.mem_append.1 hm with h | h
  · exact NUL_not_mem_cstr d h
  · exact NUL_not_mem_cstr src h

theorem strcat_terminated (d src : List Char) :
    strlen (strcat d src) < (strcat d src).length := by
  have h := cstr_strcat d src
  unfold strlen
  rw [h]
  unfold strcat
  simp only [List.length_append, List.length_cons]
  omega

theorem strcpy_terminated (d src : List Char) :
    strlen (strcpy d src) < (strcpy d src).length := by
  have h := cstr_strcpy d src
  unfold strlen
  rw [h]
  unfold strcpy
  simp only [List.length_append, List.length_cons]
  omega

theorem cstr_blank : cstr " ".toList = [' '] := by decide

/-- After the first name, the language loop appends a blank and the joined
remaining names to the string in `buf`. -/
theorem languagesLoop_succ (names : List (List Char)) (i : Nat) (buf : List Char)
    (hi : i ≠ 0) (ht : strlen buf < buf.length) :
    cstr (languagesLoop names i buf)
      = (match names with
        | [] => cstr buf
        | _ :: _ => cstr buf ++ ' ' :: joined names) ∧
    strlen (languagesLoop names i buf) < (languagesLoop names i buf).length := by
  induction names generalizing i buf with
  | nil => exact ⟨rfl, ht⟩
  | cons n r ih =>
    have hstep : languagesLoop (n :: r) i buf
        = languagesLoop r (i + 1) (strcat (strcat buf " ".toList) n) := by
      simp only [languagesLoop, hi, if_false]
    have hc : cstr (strcat (strcat buf " ".toList) n) = cstr buf ++ ' ' :: cstr n := by
      rw [cstr_strcat, cstr_strcat, cstr_blank]; simp
    obtain ⟨h1, h2⟩ := ih (i + 1) (strcat (strcat buf " ".toList) n) (by omega)
      (strcat_terminated _ _)
    rw [hstep]
    refine ⟨?_, h2⟩
    rw [h1, hc]
    cases r with
    | nil => rfl
    | cons m r' => simp [joined]

/-- With at least one language, the loop leaves the names joined by blanks,
terminated, in `buf`. -/
theorem languagesLoop_zero (n : List Char) (r : List (List Char)) (buf : List Char) :
    cstr (languagesLoop (n :: r) 0 buf) = joined (n :: r) ∧
    strlen (languagesLoop (n :: r) 0 buf) < (languagesLoop (n :: r) 0 buf).length := by
  have hstep : languagesLoop (n :: r) 0 buf = languagesLoop r (0 + 1) (strcpy buf n) := by
    simp only [languagesLoop, if_true]
  obtain ⟨h1, h2⟩ := languagesLoop_succ r (0 + 1) (strcpy buf n) (by omega)
    (strcpy_terminated _ _)
  rw [hstep]
  refine ⟨?_, h2⟩
  rw [h1, cstr_strcpy]
  cases r with
  | nil => rfl
  | cons m r' => rfl

theorem fitsBuf_languagesLoop (names : List (List Char)) (buf : List Char) (hn : names ≠ []) :
    fitsBuf (languagesLoop names 0 buf) = true ↔ (joined names).length ≤ 63 := by
  cases names with
  | nil => exact absurd rfl hn
  | cons n r =>
    obtain ⟨h1, h2⟩ := languagesLoop_zero n r buf
    unfold fitsBuf
    simp only [Bool.and_eq_true, decide_eq_true_eq, h2, and_true]
    unfold strlen
    rw [h1]
    omega

theorem take_messages_ne (k : Nat) (hk : 1 ≤ k) :
    "Could not find GeoIP2 database.".toList.take k
      ≠ "Failed to open GeoIP2 database.".toList.take k := by
  obtain ⟨j, rfl⟩ : ∃ j, k = j + 1 := ⟨k - 1, by omega⟩
  have h1 : "Could not find GeoIP2 database.".toList
      = 'C' :: "ould not find GeoIP2 database.".toList := by decide
  have h2 : "Failed to open GeoIP2 database.".toList
      = 'F' :: "ailed to open GeoIP2 database.".toList := by decide
  rw [h1, h2, List.take_succ_cons, List.take_succ_cons]
  intro hc
  have := (List.cons.inj hc).1
  revert this
  decide

/-- C6 (amended): for every directory listing, error buffer and `maxlength`,
when no database is loaded yet, `SDK_OnLoad` opens at most one database, the
first file entry whose name ends in `".mmdb"`, and no entry after it.  It
fails (returns false, the globals unchanged and the natives not registered) in
exactly two cases: there is no database (the directory cannot be opened or has
no file entry whose name ends in `".mmdb"`), and then the error buffer receives
"Could not find GeoIP2 database." through `SafeStrcpy`, that is, cut to at most
`maxlength - 1` characters; or that first matching entry fails to open, and
then the buffer receives "Failed to open GeoIP2 database." cut likewise.  For
`maxlength >= 2` each cut message is left if and only if its case holds, and
for `maxlength >= 32` the messages are left whole.  In every other case the
natives are registered, the error buffer is untouched, the call does not
return false, and it returns true exactly when the closing log code runs to
completion (with at least one language: exactly when the names joined by
blanks have at most 63 characters, given a defined date text). -/
theorem SDK_OnLoad_opens_first_database (env : LoadEnv) (ext : Extension)
    (error : List Char) (maxlength : Nat) (h : ext.filename = none) :
    ((SDK_OnLoad env ext error maxlength).opened =
      match env.OpenDirectory.bind firstDatabase with
      | none => []
      | some e => [env.PathFormat env.m_GeoipDir e.name]) ∧
    ((SDK_OnLoad env ext error maxlength).ret = some false ↔ NoDatabase env ∨ OpenFails env) ∧
    (NoDatabase env → (SDK_OnLoad env ext error maxlength).error
      = SafeStrcpy error maxlength "Could not find GeoIP2 database.".toList) ∧
    (OpenFails env → (SDK_OnLoad env ext error maxlength).error
      = SafeStrcpy error maxlength "Failed to open GeoIP2 database.".toList) ∧
    (2 ≤ maxlength →
      (((SDK_OnLoad env ext error maxlength).ret = some false ∧
          cstr (SDK_OnLoad env ext error maxlength).error
            = "Could not find GeoIP2 database.".toList.take (maxlength - 1)) ↔ NoDatabase env) ∧
      (((SDK_OnLoad env ext error maxlength).ret = some false ∧
          cstr (SDK_OnLoad env ext error maxlength).error
            = "Failed to open GeoIP2 database.".toList.take (maxlength - 1)) ↔ OpenFails env)) ∧
    (32 ≤ maxlength →
      (((SDK_OnLoad env ext error maxlength).ret = some false ∧
          cstr (SDK_OnLoad env ext error maxlength).error
            = "Could not find GeoIP2 database.".toList) ↔ NoDatabase env) ∧
      (((SDK_OnLoad env ext error maxlength).ret = some false ∧
          cstr (SDK_OnLoad env ext error maxlength).error
            = "Failed to open GeoIP2 database.".toList) ↔ OpenFails env)) ∧
    ((SDK_OnLoad env ext error maxlength).ret = some false →
      (SDK_OnLoad env ext error maxlength).ext = ext) ∧
    (∀ e, env.OpenDirectory.bind firstDatabase = some e →
      env.MMDB_open (env.PathFormat env.m_GeoipDir e.name) = MMDB_SUCCESS →
      (SDK_OnLoad env ext error maxlength).ext
        = { filename := some (env.PathFormat env.m_GeoipDir e.name), natives := true } ∧
      (SDK_OnLoad env ext error maxlength).error = error ∧
      (SDK_OnLoad env ext error maxlength).ret ≠ some false ∧
      ((SDK_OnLoad env ext error maxlength).ret = some true ↔
        LogCompletes env (env.PathFormat env.m_GeoipDir e.name)) ∧
      ((env.metadata (env.PathFormat env.m_GeoipDir e.name)).languages ≠ [] →
        (fitsBuf (languagesLoop (env.metadata (env.PathFormat env.m_GeoipDir e.name)).languages
            0 env.buf) = true ↔
          (joined (env.metadata (env.PathFormat env.m_GeoipDir e.name)).languages).length
            ≤ 63))) := by
  have hNF : cstr "Could not find GeoIP2 database.".toList
      = "Could not find GeoIP2 database.".toList := by decide
  have hFO : cstr "Failed to open GeoIP2 database.".toList
      = "Failed to open GeoIP2 database.".toList := by decide
  have hlenNF : "Could not find GeoIP2 database.".toList.length = 31 := by decide
  have hlenFO : "Failed to open GeoIP2 database.".toList.length = 31 := by decide
  have hnd : NoDatabase env ↔ env.OpenDirectory.bind firstDatabase = none :=
    (bind_firstDatabase_eq_none env).symm
  -- the two cut-message equivalences, from the facts of each case
  have hcut : ∀ (R : LoadResult) (k : Nat), 2 ≤ k →
      (R.ret = some false ↔ NoDatabase env ∨ OpenFails env) →
      ¬ (NoDatabase env ∧ OpenFails env) →
      (NoDatabase env → R.error = SafeStrcpy error k "Could not find GeoIP2 database.".toList) →
      (OpenFails env → R.error = SafeStrcpy error k "Failed to open GeoIP2 database.".toList) →
      ((R.ret = some false ∧
          cstr R.error = "Could not find GeoIP2 database.".toList.take (k - 1)) ↔ NoDatabase env) ∧
      ((R.ret = some false ∧
          cstr R.error = "Failed to open GeoIP2 database.".toList.take (k - 1)) ↔ OpenFails env) := by
    intro R k hk hret hex hn hf
    have hne := take_messages_ne (k - 1) (by omega)
    constructor
    · constructor
      · rintro ⟨hr, he⟩
        rcases hret.1 hr with h1 | h1
        · exact h1
        · rw [hf h1, cstr_SafeStrcpy _ _ (by omega), hFO] at he
          exact absurd he.symm hne
      · intro h1
        refine ⟨hret.2 (Or.inl h1), ?_⟩
        rw [hn h1, cstr_SafeStrcpy _ _ (by omega), hNF]
    · constructor
      · rintro ⟨hr, he⟩
        rcases hret.1 hr with h1 | h1
        · rw [hn h1, cstr_SafeStrcpy _ _ (by omega), hNF] at he
          exact absurd he hne
        · exact h1
      · intro h1
        refine ⟨hret.2 (Or.inr h1), ?_⟩
        rw [hf h1, cstr_SafeStrcpy _ _ (by omega), hFO]
  have hex : ¬ (NoDatabase env ∧ OpenFails env) := by
    rintro ⟨h1, e, h2, _⟩
    rw [hnd.1 h1] at h2
    simp at h2
  -- the first four conjuncts and the last two, by cases
  have hmain :
      ((SDK_OnLoad env ext error maxlength).opened =
        match env.OpenDirectory.bind firstDatabase with
        | none => []
        | some e => [env.PathFormat env.m_GeoipDir e.name]) ∧
      ((SDK_OnLoad env ext error maxlength).ret = some false ↔ NoDatabase env ∨ OpenFails env) ∧
      (NoDatabase env → (SDK_OnLoad env ext error maxlength).error
        = SafeStrcpy error maxlength "Could not find GeoIP2 database.".toList) ∧
      (OpenFails env → (SDK_OnLoad env ext error maxlength).error
        = SafeStrcpy error maxlength "Failed to open GeoIP2 database.".toList) ∧
      ((SDK_OnLoad env ext error maxlength).ret = some false →
        (SDK_OnLoad env ext error maxlength).ext = ext) := by
    cases hfd : env.OpenDirectory.bind firstDatabase with
    | none =>
      have hN : NoDatabase env := hnd.2 hfd
      rw [SDK_OnLoad_notFound env ext error maxlength h hfd]
      exact ⟨rfl, ⟨fun _ => Or.inl hN, fun _ => rfl⟩, fun _ => rfl,
        fun hO => absurd ⟨hN, hO⟩ hex, fun _ => rfl⟩
    | some e =>
      have hN : ¬ NoDatabase env := fun hc => by rw [hnd.1 hc] at hfd; simp at hfd
      by_cases ho : env.MMDB_open (env.PathFormat env.m_GeoipDir e.name) = MMDB_SUCCESS
      · obtain ⟨h1, _, _, h4⟩ := SDK_OnLoad_loaded env ext error maxlength h e hfd ho
        have hO : ¬ OpenFails env := by
          rintro ⟨e', he', hfail⟩
          rw [hfd] at he'
          cases he'
          exact hfail ho
        have hret : (SDK_OnLoad env ext error maxlength).ret ≠ some false := by
          rw [h4]; split <;> simp
        exact ⟨h1, ⟨fun hc => absurd hc hret, fun hc => hc.elim (fun x => absurd x hN)
          (fun x => absurd x hO)⟩, fun hc => absurd hc hN, fun hc => absurd hc hO,
          fun hc => absurd hc hret⟩
      · have hO : OpenFails env := ⟨e, hfd, ho⟩
        rw [SDK_OnLoad_openFailed env ext error maxlength h e hfd ho]
        exact ⟨rfl, ⟨fun _ => Or.inr hO, fun _ => rfl⟩, fun hc => absurd hc hN,
          fun _ => rfl, fun _ => rfl⟩
  obtain ⟨m1, m2, m3, m4, m5⟩ := hmain
  refine ⟨m1, m2, m3, m4, fun hk => hcut _ maxlength hk m2 hex m3 m4, ?_, m5, ?_⟩
  · intro hk
    have h2 := hcut _ maxlength (by omega) m2 hex m3 m4
    rw [List.take_of_length_le (by omega), List.take_of_length_le (by omega)] at h2
    exact h2
  · intro e hfd ho
    obtain ⟨_, h2, h3, h4⟩ := SDK_OnLoad_loaded env ext error maxlength h e hfd ho
    refine ⟨h3, h2, ?_, ?_, fun hn => fitsBuf_languagesLoop _ _ hn⟩
    · rw [h4]; split <;> simp
    · rw [h4]
      by_cases hl : LogCompletes env (env.PathFormat env.m_GeoipDir e.name) <;> simp [hl]

/-- C6 (amended), at concrete inputs: the sample directory, whose first
database file is `GeoLite2-City.mmdb` (after a text file and a sub-directory
named `old.mmdb`), with a 256-byte error buffer; and a directory that cannot
be opened. -/
theorem SDK_OnLoad_opens_first_database_witness :
    (SDK_OnLoad sampleLoadEnv ⟨none, false⟩ (List.replicate 256 NUL) 256).opened
      = ["configs/geoip/GeoLite2-City.mmdb".toList] ∧
    (SDK_OnLoad sampleLoadEnv ⟨none, false⟩ (List.replicate 256 NUL) 256).ret = some true ∧
    ((SDK_OnLoad noDirectoryEnv ⟨none, false⟩ (List.replicate 256 NUL) 256).ret = some false ∧
      cstr (SDK_OnLoad noDirectoryEnv ⟨none, false⟩ (List.replicate 256 NUL) 256).error
        = "Could not find GeoIP2 database.".toList) :=
  ⟨(SDK_OnLoad_opens_first_database sampleLoadEnv ⟨none, false⟩ (List.replicate 256 NUL) 256
      rfl).1,
    ((SDK_OnLoad_opens_first_database sampleLoadEnv ⟨none, false⟩ (List.replicate 256 NUL) 256
      rfl).2.2.2.2.2.2.2 ⟨true, "GeoLite2-City.mmdb".toList⟩ (by decide)
      (by decide)).2.2.2.1.2 (by decide),
    ((SDK_OnLoad_opens_first_database noDirectoryEnv ⟨none, false⟩ (List.replicate 256 NUL) 256
      rfl).2.2.2.2.2.1 (by decide)).1.2 (Or.inl rfl)⟩

/-- C6 fails as stated: with an error buffer of 8 bytes and a directory that
cannot be opened, `SDK_OnLoad` returns false and leaves `"Could n"` in the
buffer, not the message "Could not find GeoIP2 database.". -/
theorem SDK_OnLoad_message_counterexample :
    noDirectoryEnv.OpenDirectory = none ∧
    (SDK_OnLoad noDirectoryEnv ⟨none, false⟩ (List.replicate 8 NUL) 8).ret = some false ∧
    cstr (SDK_OnLoad noDirectoryEnv ⟨none, false⟩ (List.replicate 8 NUL) 8).error
      = "Could n".toList ∧
    cstr (SDK_OnLoad noDirectoryEnv ⟨none, false⟩ (List.replicate 8 NUL) 8).error
      ≠ "Could not find GeoIP2 database.".toList := by
  decide

/-! ## Lemmas on the plugin memory -/

theorem getElem?_writeThrough_lt (mem buf : List Char) {a i : Nat} (ha : a ≤ mem.length)
    (hi : i < a) : (writeThrough mem a buf)[i]? = mem[i]? := by
  unfold writeThrough
  rw [List.getElem?_append_left (by rw [List.length_take]; omega),
    List.getElem?_take_of_lt hi]

theorem getElem?_writeThrough_ge (mem buf : List Char) {a i : Nat} (ha : a ≤ mem.length)
    (hi : a ≤ i) : (writeThrough mem a buf)[i]? = buf[i - a]? := by
  unfold writeThrough
  have hl : (mem.take a).length = a := by rw [List.length_take]; omega
  rw [List.getElem?_append_right (by omega), hl]

theorem LocalToString_writeThrough (mem buf : List Char) {a : Nat} (ha : a ≤ mem.length) :
    LocalToString (writeThrough mem a buf) a = buf := by
  unfold LocalToString writeThrough
  exact List.drop_left' (by rw [List.length_take]; omega)

theorem length_writeThrough (mem buf : List Char) {a : Nat} (ha : a ≤ mem.length) :
    (writeThrough mem a buf).length = a + buf.length := by
  unfold writeThrough
  rw [List.length_append, List.length_take]
  omega

theorem length_LocalToString (mem : List Char) (a : Nat) :
    (LocalToString mem a).length = mem.length - a := by
  unfold LocalToString
  exact List.length_drop a mem

theorem length_StripPort (buf : List Char) : (StripPort buf).length = buf.length := by
  unfold StripPort
  split <;> simp

theorem le_length_strcpy (dst src : List Char) : dst.length ≤ (strcpy dst src).length := by
  unfold strcpy
  simp only [List.length_append, List.length_cons, List.length_drop]
  omega

theorem strlen_le_length (buf : List Char) : strlen buf ≤ buf.length := by
  unfold strlen cstr
  exact (List.takeWhile_prefix _).length_le

theorem le_length_StringToLocal (dest src : List Char) (bytes : Nat) :
    dest.length ≤ (StringToLocal dest bytes src).length := by
  unfold StringToLocal
  by_cases hb : bytes = 0
  · simp [hb]
  · have hsl := strlen_le_length src
    simp only [hb, if_false, List.length_append, List.length_cons, List.length_drop,
      List.length_take]
    split <;> omega

/-- The function `StripPort` changes no byte at or after the end of the string. -/
theorem StripPort_getElem?_of_le (buf : List Char) {j : Nat} (hj : strlen buf ≤ j) :
    (StripPort buf)[j]? = buf[j]? := by
  rcases split_colon buf with h | ⟨a, t, hs, hc, hn⟩
  · rw [StripPort_of_no_colon h]
  · subst hs
    have hlen : a.length + 1 ≤ j := by
      have : strlen (a ++ ':' :: t) = a.length + 1 + (cstr t).length := by
        unfold strlen
        rw [cstr_append _ hn, cstr_cons]
        simp only [NUL_ne_colon.symm, if_false, List.length_append, List.length_cons]
        omega
      omega
    rw [StripPort_of_colon t hc hn, List.getElem?_append_right (by omega),
      List.getElem?_append_right (by omega)]
    obtain ⟨k, hk⟩ : ∃ k, j - a.length = k + 1 := ⟨j - a.length - 1, by omega⟩
    rw [hk]
    rfl

/-- The function `strcpy` changes no byte after the terminator it writes. -/
theorem strcpy_getElem?_of_le (dst src : List Char) {j : Nat}
    (hj : (cstr src).length + 1 ≤ j) : (strcpy dst src)[j]? = dst[j]? := by
  unfold strcpy
  rw [List.getElem?_append_right (by omega)]
  obtain ⟨k, hk⟩ : ∃ k, j - (cstr src).length = k + 1 :=
    ⟨j - (cstr src).length - 1, by omega⟩
  rw [hk, List.getElem?_cons_succ, List.getElem?_drop]
  congr 1
  omega

/-- The routine `StringToLocal` changes no byte after the first `bytes` bytes
of the destination. -/
theorem StringToLocal_getElem?_of_le (dest src : List Char) {bytes j : Nat}
    (hj : bytes ≤ j) : (StringToLocal dest bytes src)[j]? = dest[j]? := by
  unfold StringToLocal
  by_cases hb : bytes = 0
  · simp [hb]
  · simp only [hb, if_false]
    have hlen : ∀ len, len ≤ strlen src → len + 1 ≤ j →
        (src.take len ++ NUL :: dest.drop (len + 1))[j]? = dest[j]? := by
      intro len hl hlj
      have hsl : strlen src ≤ src.length := strlen_le_length src
      have ht : (src.take len).length = len := by
        rw [List.length_take]; omega
      rw [List.getElem?_append_right (by omega), ht]
      obtain ⟨k, hk⟩ : ∃ k, j - len = k + 1 := ⟨j - len - 1, by omega⟩
      rw [hk, List.getElem?_cons_succ, List.getElem?_drop]
      congr 1
      omega
    by_cases hs : strlen src ≥ bytes
    · simp only [hs, if_true]
      exact hlen _ (by omega) (by omega)
    · simp only [hs, if_false]
      exact hlen _ (le_refl _) (by omega)

/-- A write through a pointer by an operation that changes no byte from offset
`k` on changes the memory at most in the `k` bytes from the pointer. -/
theorem differsWithin_writeThrough (mem : List Char) (a k : Nat) (buf : List Char)
    (ha : a ≤ mem.length)
    (hf : ∀ j, k ≤ j → buf[j]? = (LocalToString mem a)[j]?) :
    DiffersWithin mem (writeThrough mem a buf) a k := by
  intro i hi
  by_cases hlt : i < a
  · exact getElem?_writeThrough_lt mem buf ha hlt
  · have hge : a + k ≤ i := by omega
    rw [getElem?_writeThrough_ge mem buf ha (by omega), hf _ (by omega)]
    unfold LocalToString
    rw [List.getElem?_drop]
    congr 1
    omega

theorem DiffersWithin.refl (mem : List Char) (a k : Nat) : DiffersWithin mem mem a k :=
  fun _ _ => rfl

/-- Two memories that agree on the addresses of `[b, b + n)` hold the same
region there. -/
theorem region_congr (mem mem' : List Char) (b n : Nat)
    (h : ∀ i, b ≤ i → i < b + n → mem'[i]? = mem[i]?) : region mem' b n = region mem b n := by
  unfold region
  apply List.ext_getElem?
  intro j
  by_cases hj : j < n
  · rw [List.getElem?_take_of_lt hj, List.getElem?_take_of_lt hj, List.getElem?_drop,
      List.getElem?_drop]
    exact h _ (by omega) (by omega)
  · rw [List.getElem?_take_eq_none (by omega), List.getElem?_take_eq_none (by omega)]

theorem take_strlen_succ (u : List Char) (h : strlen u < u.length) :
    u.take (strlen u + 1) = cstr u ++ [NUL] := by
  induction u with
  | nil => simp [strlen, cstr_nil] at h
  | cons c r ih =>
    by_cases hc : c = NUL
    · simp [strlen, cstr_cons, hc]
    · have hs : strlen (c :: r) = strlen r + 1 := by simp [strlen, cstr_cons, hc]
      rw [hs] at h ⊢
      simp only [List.length_cons, Nat.add_lt_add_iff_right] at h
      rw [List.take_succ_cons, ih h, cstr_cons]
      simp [hc]

/-- A buffer that agrees with the terminated buffer `u` on the string of `u`
and its terminator holds the same string. -/
theorem cstr_of_take_eq (u v : List Char) (n : Nat) (hu : strlen u < u.length)
    (hn : strlen u + 1 ≤ n) (h : v.take n = u.take n) : cstr v = cstr u := by
  have h1 : v.take (strlen u + 1) = u.take (strlen u + 1) := by
    have := congrArg (List.take (strlen u + 1)) h
    rwa [List.take_take, List.take_take, Nat.min_eq_left hn] at this
  rw [take_strlen_succ u hu] at h1
  have h2 : v = (cstr u ++ [NUL]) ++ v.drop (strlen u + 1) := by
    rw [← h1, List.take_append_drop]
  rw [h2, List.append_assoc]
  exact cstr_append_NUL _ (NUL_not_mem_cstr u)

theorem Shape.runInMemory_mem (s : Shape) (env : Env) (mem : List Char) (params : Params) :
    ∃ cc, (s.runInMemory env mem params).mem
      = writeThrough (defaultedMemory s (strippedMemory mem params) params) params.name
          (StringToLocal
            (LocalToString (defaultedMemory s (strippedMemory mem params) params) params.name)
            (s.bytes params.maxlen) cc) :=
  ⟨_, rfl⟩

theorem length_strippedMemory (mem : List Char) (params : Params)
    (hip : params.ip ≤ mem.length) : (strippedMemory mem params).length = mem.length := by
  unfold strippedMemory
  rw [length_writeThrough _ _ hip, length_StripPort, length_LocalToString]
  omega

theorem differsWithin_strippedMemory (mem : List Char) (params : Params)
    (hip : params.ip ≤ mem.length) :
    DiffersWithin mem (strippedMemory mem params) params.ip
      (strlen (LocalToString mem params.ip)) :=
  differsWithin_writeThrough mem _ _ _ hip (fun _ hj => StripPort_getElem?_of_le _ hj)

theorem LocalToString_strippedMemory (mem : List Char) (params : Params)
    (hip : params.ip ≤ mem.length) :
    LocalToString (strippedMemory mem params) params.ip
      = StripPort (LocalToString mem params.ip) :=
  LocalToString_writeThrough _ _ hip

theorem le_length_defaultedMemory (s : Shape) (mem : List Char) (params : Params)
    (hl : params.lang ≤ mem.length) : mem.length ≤ (defaultedMemory s mem params).length := by
  unfold defaultedMemory
  split
  · split
    · rw [length_writeThrough _ _ hl]
      have := le_length_strcpy (LocalToString mem params.lang) "en".toList
      rw [length_LocalToString] at this
      omega
    · exact le_refl _
  · exact le_refl _

theorem cstr_en : cstr "en".toList = "en".toList := by decide

theorem differsWithin_defaultedMemory (s : Shape) (mem : List Char) (params : Params)
    (hl : params.lang ≤ mem.length) :
    DiffersWithin mem (defaultedMemory s mem params) params.lang
      (if s.useLang = true ∧ strlen (LocalToString mem params.lang) = 0 then 3 else 0) := by
  unfold defaultedMemory
  by_cases hu : s.useLang = true
  · by_cases h0 : strlen (LocalToString mem params.lang) = 0
    · simp only [hu, h0, if_true, and_self]
      refine differsWithin_writeThrough mem _ _ _ hl (fun j hj => ?_)
      exact strcpy_getElem?_of_le _ _ (by rw [cstr_en]; exact hj)
    · simp only [hu, h0, if_true, if_false, and_false]
      exact DiffersWithin.refl _ _ _
  · simp only [hu, if_false, false_and]
    exact DiffersWithin.refl _ _ _

/-- The memory after the call differs from the memory before the result is
written at most inside the result buffer. -/
theorem differsWithin_runInMemory (s : Shape) (env : Env) (mem : List Char) (params : Params)
    (hn : params.name ≤ (defaultedMemory s (strippedMemory mem params) params).length) :
    DiffersWithin (defaultedMemory s (strippedMemory mem params) params)
      (s.runInMemory env mem params).mem params.name (s.bytes params.maxlen) := by
  obtain ⟨cc, hcc⟩ := Shape.runInMemory_mem s env mem params
  rw [hcc]
  exact differsWithin_writeThrough _ _ _ _ hn (fun _ hj => StringToLocal_getElem?_of_le _ _ hj)

theorem strlen_StripPort_le (buf : List Char) : strlen (StripPort buf) ≤ strlen buf := by
  unfold strlen
  rw [cstr_StripPort]
  exact (List.takeWhile_prefix _).length_le

theorem region_eq_take (mem : List Char) (a n : Nat) :
    region mem a n = (LocalToString mem a).take n := rfl

/-- The IP string after a call, when later writes stay clear of it. -/
theorem ip_region_of_differs (mem mem' : List Char) (params : Params)
    (hip : params.ip + strlen (LocalToString mem params.ip) < mem.length)
    (h : ∀ i, params.ip ≤ i → i < params.ip + (strlen (LocalToString mem params.ip) + 1) →
      mem'[i]? = (strippedMemory mem params)[i]?) :
    region mem' params.ip (strlen (LocalToString mem params.ip) + 1)
      = (StripPort (LocalToString mem params.ip)).take
          (strlen (LocalToString mem params.ip) + 1) ∧
    cstr (LocalToString mem' params.ip)
      = (cstr (LocalToString mem params.ip)).takeWhile (fun c => c != ':') := by
  have h1 : region mem' params.ip (strlen (LocalToString mem params.ip) + 1)
      = (StripPort (LocalToString mem params.ip)).take
          (strlen (LocalToString mem params.ip) + 1) := by
    rw [region_congr _ _ _ _ h, region_eq_take,
      LocalToString_strippedMemory mem params (by omega)]
  refine ⟨h1, ?_⟩
  rw [← cstr_StripPort]
  refine cstr_of_take_eq _ _ (strlen (LocalToString mem params.ip) + 1) ?_ ?_ h1
  · have := strlen_StripPort_le (LocalToString mem params.ip)
    rw [length_StripPort, length_LocalToString]
    omega
  · have := strlen_StripPort_le (LocalToString mem params.ip)
    omega

theorem DiffersWithin.mono {mem mem' : List Char} {a k k' : Nat}
    (h : DiffersWithin mem mem' a k) (hk : k ≤ k') : DiffersWithin mem mem' a k' :=
  fun i hi => h i (by omega)

theorem langRegion_ge (m : Nat) : m + 1 ≤ langRegion m := by
  unfold langRegion
  split <;> omega

/-- A shape that takes no language strips the port in place and touches
nothing else but the result buffer. -/
theorem Shape.stripsInPlace (s : Shape) (hu : s.useLang = false) :
    StripsInPlace s.runInMemory s.bytes := by
  intro env mem params hip hname hap
  have hipl : params.ip ≤ mem.length := by omega
  have hlen1 := length_strippedMemory mem params hipl
  have h2 : defaultedMemory s (strippedMemory mem params) params = strippedMemory mem params := by
    simp [defaultedMemory, hu]
  have D1 := differsWithin_strippedMemory mem params hipl
  have D3 := differsWithin_runInMemory s env mem params (by rw [h2, hlen1]; omega)
  rw [h2] at D3
  have hipr := ip_region_of_differs mem (s.runInMemory env mem params).mem params hip
    (fun i h1 h3 => D3 i (by unfold Apart at hap; omega))
  refine ⟨hipr.1, hipr.2, ?_⟩
  intro i hi hn
  rw [D3 i (by omega), D1 i (by omega)]

/-- A shape that takes a language and writes `params[3]` bytes strips the port
in place, defaults an empty language string in place, and touches nothing else
but the result buffer. -/
theorem Shape.defaultsLangInPlace (s : Shape) (hu : s.useLang = true)
    (hb : ∀ n, s.bytes n = n) : DefaultsLangInPlace s.runInMemory := by
  intro env mem params hip hlang hname hap_in hap_il hap_ln
  have hipl : params.ip ≤ mem.length := by omega
  have hlen1 := length_strippedMemory mem params hipl
  have D1 := differsWithin_strippedMemory mem params hipl
  have hlr := langRegion_ge (strlen (LocalToString mem params.lang))
  -- the language string is not touched by `StripPort`
  have hreg1 : region (strippedMemory mem params) params.lang
        (strlen (LocalToString mem params.lang) + 1)
      = region mem params.lang (strlen (LocalToString mem params.lang) + 1) :=
    region_congr _ _ _ _ (fun i h1 h3 => D1 i (by unfold Apart at hap_il; omega))
  have hc1 : cstr (LocalToString (strippedMemory mem params) params.lang)
      = cstr (LocalToString mem params.lang) :=
    cstr_of_take_eq _ _ _ (by rw [length_LocalToString]; omega) (le_refl _) hreg1
  have hs1 : strlen (LocalToString (strippedMemory mem params) params.lang)
      = strlen (LocalToString mem params.lang) := by
    unfold strlen; rw [hc1]
  have D2 := differsWithin_defaultedMemory s (strippedMemory mem params) params
    (by rw [hlen1]; omega)
  rw [hs1] at D2
  have hlen2 := le_length_defaultedMemory s (strippedMemory mem params) params
    (by rw [hlen1]; omega)
  have D3 := differsWithin_runInMemory s env mem params (by omega)
  rw [hb] at D3
  have hk2 : (if s.useLang = true ∧ strlen (LocalToString mem params.lang) = 0 then 3 else 0)
      ≤ langRegion (strlen (LocalToString mem params.lang)) := by
    unfold langRegion
    split <;> split <;> simp_all
  have D2' := D2.mono hk2
  have hipr := ip_region_of_differs mem (s.runInMemory env mem params).mem params hip
    (fun i h1 h3 => by
      rw [D3 i (by unfold Apart at hap_in; omega), D2' i (by unfold Apart at hap_il; omega)])
  refine ⟨hipr.1, hipr.2, ?_, ?_, ?_⟩
  · intro h0
    have hm : strlen (LocalToString mem params.lang) = 0 := (strlen_eq_zero _).2 h0
    have hmem2 : defaultedMemory s (strippedMemory mem params) params
        = writeThrough (strippedMemory mem params) params.lang
            (strcpy (LocalToString (strippedMemory mem params) params.lang) "en".toList) := by
      simp [defaultedMemory, hu, hs1, hm]
    have hL2 : LocalToString (defaultedMemory s (strippedMemory mem params) params) params.lang
        = strcpy (LocalToString (strippedMemory mem params) params.lang) "en".toList := by
      rw [hmem2]
      exact LocalToString_writeThrough _ _ (by rw [hlen1]; omega)
    have hreg : region (s.runInMemory env mem params).mem params.lang 3
        = region (defaultedMemory s (strippedMemory mem params) params) params.lang 3 :=
      region_congr _ _ _ _ (fun i h1 h3 => D3 i (by
        unfold Apart at hap_ln; rw [hm] at hap_ln; unfold langRegion at hap_ln
        simp only [if_true] at hap_ln; omega))
    have htake : (strcpy (LocalToString (strippedMemory mem params) params.lang)
        "en".toList).take 3 = ['e', 'n', NUL] := by
      unfold strcpy
      rw [cstr_en]
      rfl
    constructor
    · rw [hreg, region_eq_take, hL2, htake]
    · have := cstr_of_take_eq
        (strcpy (LocalToString (strippedMemory mem params) params.lang) "en".toList)
        (LocalToString (s.runInMemory env mem params).mem params.lang) 3
        (strcpy_terminated _ _)
        (by unfold strlen; rw [cstr_strcpy, cstr_en]; decide)
        (by rw [← region_eq_take, hreg, region_eq_take, hL2])
      rw [this, cstr_strcpy, cstr_en]
  · intro hne
    have hm : strlen (LocalToString mem params.lang) ≠ 0 := fun h0 =>
      hne ((strlen_eq_zero _).1 h0)
    have hmem2 : defaultedMemory s (strippedMemory mem params) params
        = strippedMemory mem params := by
      simp [defaultedMemory, hu, hs1, hm]
    have hreg : region (s.runInMemory env mem params).mem params.lang
          (strlen (LocalToString mem params.lang) + 1)
        = region mem params.lang (strlen (LocalToString mem params.lang) + 1) := by
      rw [← hreg1]
      refine region_congr _ _ _ _ (fun i h1 h3 => ?_)
      rw [D3 i (by
        unfold Apart at hap_ln; unfold langRegion at hap_ln
        simp only [hm, if_false] at hap_ln; omega), hmem2]
    exact ⟨hreg, cstr_of_take_eq _ _ _ (by rw [length_LocalToString]; omega) (le_refl _) hreg⟩
  · intro i hi hl hn
    rw [D3 i (by omega), D2' i (by omega), D1 i (by omega)]

theorem Shape.runInMemory_eq (s : Shape) (env : Env) (mem : List Char) (params : Params) :
    s.runInMemory env mem params =
      { ret := if strlen (chosen env s.code3 (env.lookupString
            (cstr (LocalToString (defaultedMemory s (strippedMemory mem params) params) params.ip))
            (s.path (cstr (LocalToString
              (defaultedMemory s (strippedMemory mem params) params) params.lang))))) ≠ 0
          then 1 else 0
        mem := writeThrough (defaultedMemory s (strippedMemory mem params) params) params.name
          (StringToLocal
            (LocalToString (defaultedMemory s (strippedMemory mem params) params) params.name)
            (s.bytes params.maxlen)
            (chosen env s.code3 (env.lookupString
              (cstr (LocalToString (defaultedMemory s (strippedMemory mem params) params)
                params.ip))
              (s.path (cstr (LocalToString
                (defaultedMemory s (strippedMemory mem params) params) params.lang)))))) } :=
  rfl

theorem Shape.run_eq (s : Shape) (env : Env) (pCtx : Context) (n : Nat) :
    (s.run env pCtx n).ret
      = (if strlen (chosen env s.code3 (env.lookupString (cstr (StripPort pCtx.ip))
          (s.path (cstr (s.langAfter pCtx.lang))))) ≠ 0 then 1 else 0) ∧
    (s.run env pCtx n).ctx.name
      = StringToLocal pCtx.name (s.bytes n)
          (chosen env s.code3 (env.lookupString (cstr (StripPort pCtx.ip))
            (s.path (cstr (s.langAfter pCtx.lang))))) ∧
    (s.run env pCtx n).ctx.ip = StripPort pCtx.ip ∧
    (s.run env pCtx n).ctx.lang = s.langAfter pCtx.lang :=
  ⟨rfl, rfl, rfl, rfl⟩

/-- What the lookup of a call on the plugin memory is made with, when the
strings of the call do not overlap: the port-stripped IP string and the key
path of the defaulted language, as on separate buffers. -/
theorem Shape.lookup_args_in_memory (s : Shape)
    (hs : (s.useLang = false ∧ ∀ l l', s.path l = s.path l') ∨ s.useLang = true)
    (mem : List Char) (params : Params)
    (hip : params.ip + strlen (LocalToString mem params.ip) < mem.length)
    (hl : s.useLang = true →
      params.lang + strlen (LocalToString mem params.lang) < mem.length ∧
      Apart params.ip (strlen (LocalToString mem params.ip) + 1)
        params.lang (langRegion (strlen (LocalToString mem params.lang)))) :
    cstr (LocalToString (defaultedMemory s (strippedMemory mem params) params) params.ip)
      = cstr (StripPort (LocalToString mem params.ip)) ∧
    s.path (cstr (LocalToString (defaultedMemory s (strippedMemory mem params) params)
        params.lang))
      = s.path (cstr (s.langAfter (LocalToString mem params.lang))) ∧
    mem.length ≤ (defaultedMemory s (strippedMemory mem params) params).length := by
  have hipl : params.ip ≤ mem.length := by omega
  have hlen1 := length_strippedMemory mem params hipl
  have D1 := differsWithin_strippedMemory mem params hipl
  have L1 := LocalToString_strippedMemory mem params hipl
  rcases hs with ⟨hu, hp⟩ | hu
  · have h2 : defaultedMemory s (strippedMemory mem params) params
        = strippedMemory mem params := by
      simp [defaultedMemory, hu]
    rw [h2, L1, hlen1]
    exact ⟨rfl, hp _ _, le_refl _⟩
  · obtain ⟨hlang, hap_il⟩ := hl hu
    have hlr := langRegion_ge (strlen (LocalToString mem params.lang))
    have hreg1 : region (strippedMemory mem params) params.lang
          (strlen (LocalToString mem params.lang) + 1)
        = region mem params.lang (strlen (LocalToString mem params.lang) + 1) :=
      region_congr _ _ _ _ (fun i h1 h3 => D1 i (by unfold Apart at hap_il; omega))
    have hc1 : cstr (LocalToString (strippedMemory mem params) params.lang)
        = cstr (LocalToString mem params.lang) :=
      cstr_of_take_eq _ _ _ (by rw [length_LocalToString]; omega) (le_refl _) hreg1
    have hs1 : strlen (LocalToString (strippedMemory mem params) params.lang)
        = strlen (LocalToString mem params.lang) := by
      unfold strlen; rw [hc1]
    have D2 := differsWithin_defaultedMemory s (strippedMemory mem params) params
      (by rw [hlen1]; omega)
    rw [hs1] at D2
    have hk2 : (if s.useLang = true ∧ strlen (LocalToString mem params.lang) = 0 then 3 else 0)
        ≤ langRegion (strlen (LocalToString mem params.lang)) := by
      unfold langRegion
      split <;> split <;> simp_all
    have D2' := D2.mono hk2
    have hlen2 := le_length_defaultedMemory s (strippedMemory mem params) params
      (by rw [hlen1]; omega)
    refine ⟨?_, ?_, by omega⟩
    · rw [← L1]
      refine cstr_of_take_eq _ _ (strlen (LocalToString mem params.ip) + 1) ?_ ?_ ?_
      · rw [L1, length_StripPort, length_LocalToString]
        have := strlen_StripPort_le (LocalToString mem params.ip)
        omega
      · rw [L1]
        have := strlen_StripPort_le (LocalToString mem params.ip)
        omega
      · exact region_congr _ _ _ _
          (fun i h1 h3 => D2' i (by unfold Apart at hap_il; omega))
    · congr 1
      rw [cstr_langAfter_of_useLang hu]
      by_cases h0 : cstr (LocalToString mem params.lang) = []
      · have hm : strlen (LocalToString mem params.lang) = 0 := (strlen_eq_zero _).2 h0
        have hmem2 : defaultedMemory s (strippedMemory mem params) params
            = writeThrough (strippedMemory mem params) params.lang
                (strcpy (LocalToString (strippedMemory mem params) params.lang)
                  "en".toList) := by
          simp [defaultedMemory, hu, hs1, hm]
        rw [hmem2, LocalToString_writeThrough _ _ (by rw [hlen1]; omega), cstr_strcpy,
          effectiveLang_of_empty h0, cstr_en]
      · have hm : strlen (LocalToString mem params.lang) ≠ 0 := fun h =>
          h0 ((strlen_eq_zero _).1 h)
        have hmem2 : defaultedMemory s (strippedMemory mem params) params
            = strippedMemory mem params := by
          simp [defaultedMemory, hu, hs1, hm]
        rw [hmem2, hc1, effectiveLang_of_nonempty h0]

/-- The natives on the plugin memory and the natives on separate buffers
agree on calls whose strings do not overlap. -/
theorem Shape.agreesWithBuffers (s : Shape)
    (hs : (s.useLang = false ∧ ∀ l l', s.path l = s.path l') ∨
      (s.useLang = true ∧ ∀ n, s.bytes n = n)) :
    AgreesWithBuffers s.runInMemory s.run s.bytes s.useLang := by
  intro env mem params err hip hname hap hl
  have hs' : (s.useLang = false ∧ ∀ l l', s.path l = s.path l') ∨ s.useLang = true :=
    hs.imp id And.left
  obtain ⟨KA, KP, KN⟩ := Shape.lookup_args_in_memory s hs' mem params hip
    (fun hu => ⟨(hl hu).1, (hl hu).2.1⟩)
  obtain ⟨r1, r2, r3, r4⟩ := Shape.run_eq s env (buffersOf mem params err) params.maxlen
  have hcc : chosen env s.code3 (env.lookupString
        (cstr (LocalToString (defaultedMemory s (strippedMemory mem params) params) params.ip))
        (s.path (cstr (LocalToString
          (defaultedMemory s (strippedMemory mem params) params) params.lang))))
      = chosen env s.code3 (env.lookupString (cstr (StripPort (buffersOf mem params err).ip))
          (s.path (cstr (s.langAfter (buffersOf mem params err).lang)))) := by
    rw [KA, KP]; rfl
  refine ⟨?_, ?_, ?_, ?_⟩
  · rw [r1, Shape.runInMemory_eq, hcc]
  · rw [r3, cstr_StripPort]
    rcases hs with ⟨hu, _⟩ | ⟨hu, hb⟩
    · exact (Shape.stripsInPlace s hu env mem params hip hname hap).2.1
    · obtain ⟨hlang, hap_il, hap_ln⟩ := hl hu
      rw [hb] at hname hap hap_ln
      exact (Shape.defaultsLangInPlace s hu hb env mem params hip hlang hname hap hap_il
        hap_ln).2.1
  · intro hb1
    rw [r2, Shape.runInMemory_eq, hcc]
    simp only
    rw [LocalToString_writeThrough _ _ (by omega), cstr_StringToLocal _ _ (by omega),
      cstr_StringToLocal _ _ (by omega)]
  · intro hu
    rcases hs with ⟨hu', _⟩ | ⟨_, hb⟩
    · rw [hu'] at hu; cases hu
    · obtain ⟨hlang, hap_il, hap_ln⟩ := hl hu
      rw [hb] at hname hap hap_ln
      have h := Shape.defaultsLangInPlace s hu hb env mem params hip hlang hname hap hap_il
        hap_ln
      rw [r4, cstr_langAfter_of_useLang hu]
      by_cases h0 : cstr (LocalToString mem params.lang) = []
      · rw [(h.2.2.1 h0).2]
        exact (effectiveLang_of_empty h0).symm
      · rw [(h.2.2.2.1 h0).2]
        exact (effectiveLang_of_nonempty h0).symm

/-- On calls whose IP string, result buffer and language string lie in the
plugin memory without overlapping, each of the nine natives on the plugin
memory returns the same flag and leaves the same strings as the native on
separate buffers. -/
theorem memory_natives_agree_with_buffer_natives :
    AgreesWithBuffers InMemory.sm_Geoip_Code2 sm_Geoip_Code2 (fun _ => 3) false ∧
    AgreesWithBuffers InMemory.sm_Geoip_Code3 sm_Geoip_Code3 (fun _ => 4) false ∧
    AgreesWithBuffers InMemory.sm_Geoip_ContinentCode sm_Geoip_ContinentCode (fun _ => 3) false ∧
    AgreesWithBuffers InMemory.sm_Geoip_RegionCode sm_Geoip_RegionCode (fun _ => 4) false ∧
    AgreesWithBuffers InMemory.sm_Geoip_Timezone sm_Geoip_Timezone (fun n => n) false ∧
    AgreesWithBuffers InMemory.sm_Geoip_Country sm_Geoip_Country (fun n => n) true ∧
    AgreesWithBuffers InMemory.sm_Geoip_Continent sm_Geoip_Continent (fun n => n) true ∧
    AgreesWithBuffers InMemory.sm_Geoip_Region sm_Geoip_Region (fun n => n) true ∧
    AgreesWithBuffers InMemory.sm_Geoip_City sm_Geoip_City (fun n => n) true :=
  ⟨Shape.agreesWithBuffers
      ⟨false, fun _ => ["country".toList, "iso_code".toList], fun _ => 3, false⟩
      (Or.inl ⟨rfl, fun _ _ => rfl⟩),
    Shape.agreesWithBuffers
      ⟨false, fun _ => ["country".toList, "iso_code".toList], fun _ => 4, true⟩
      (Or.inl ⟨rfl, fun _ _ => rfl⟩),
    Shape.agreesWithBuffers
      ⟨false, fun _ => ["continent".toList, "code".toList], fun _ => 3, false⟩
      (Or.inl ⟨rfl, fun _ _ => rfl⟩),
    Shape.agreesWithBuffers
      ⟨false, fun _ => ["subdivisions".toList, "0".toList, "iso_code".toList], fun _ => 4, false⟩
      (Or.inl ⟨rfl, fun _ _ => rfl⟩),
    Shape.agreesWithBuffers
      ⟨false, fun _ => ["location".toList, "time_zone".toList], fun n => n, false⟩
      (Or.inl ⟨rfl, fun _ _ => rfl⟩),
    Shape.agreesWithBuffers
      ⟨true, fun l => ["country".toList, "names".toList, l], fun n => n, false⟩
      (Or.inr ⟨rfl, fun _ => rfl⟩),
    Shape.agreesWithBuffers
      ⟨true, fun l => ["continent".toList, "names".toList, l], fun n => n, false⟩
      (Or.inr ⟨rfl, fun _ => rfl⟩),
    Shape.agreesWithBuffers
      ⟨true, fun l => ["subdivisions".toList, "0".toList, "names".toList, l], fun n => n, false⟩
      (Or.inr ⟨rfl, fun _ => rfl⟩),
    Shape.agreesWithBuffers
      ⟨true, fun l => ["city".toList, "names".toList, l], fun n => n, false⟩
      (Or.inr ⟨rfl, fun _ => rfl⟩)⟩

set_option maxRecDepth 20000 in
/-- The language loop of `SDK_OnLoad` at a database with 22 two-letter
languages: the database opens and the natives are registered, but the 65
characters of the language list do not end inside `buf[64]`, and the call has
no defined return. -/
theorem SDK_OnLoad_language_list_overrun :
    (SDK_OnLoad crowdedLoadEnv ⟨none, false⟩ (List.replicate 256 NUL) 256).ext.natives = true ∧
    (joined (crowdedLoadEnv.metadata "configs/geoip/GeoLite2-City.mmdb".toList).languages).length
      = 65 ∧
    (SDK_OnLoad crowdedLoadEnv ⟨none, false⟩ (List.replicate 256 NUL) 256).ret = none := by
  decide

end GeoIP2
